import Mathlib

/-!
# Revolution-surface tessellator and scene controller of `src/main.cpp`

A shallow embedding of the C++ program.

* The scalar type `K` stands for `double` and `F` for `float`.  Arithmetic on
  `K` is taken from the type classes `Add`, `Sub`, `Mul`, `Div`, `Neg`,
  `IntCast` (the conversion `double(int)`) and `OfScientific` (the literals
  `0.5`, `2.`, ...); no law is assumed of them in the definitions, so every
  theorem that does not ask for a field holds of IEEE arithmetic as well.
  The library functions (`cos`, `sin`, `sqrt`, the constants of
  `glm/gtc/constants.hpp`, the conversions between `float` and `double`) are
  the fields of `Glm`.
* `int` is modelled by `Int`: signed overflow is undefined in C++, so every
  defined execution computes the same values as the integers do.
* `std::vector` is modelled by `List`, `push_back` appends at the end.
* A frame is modelled twice: `frame` is what it writes to the program state,
  `render` is the list of OpenGL calls it issues; `drawn` reads the draws off
  such a list through the part of the OpenGL context the calls touch.  The
  functions of GLM on `float` take a second record `Glm F F`.
-/

namespace Graphics3D

/-! ## Vectors of GLM -/

/-- Two components, `glm::dvec2`. -/
structure Vec2 (K : Type) where
  x : K
  y : K
deriving DecidableEq, Repr

/-- Three components, `glm::dvec3` (over `double`) and `glm::vec3` (over `float`). -/
structure Vec3 (K : Type) where
  x : K
  y : K
  z : K
deriving DecidableEq, Repr

/-- Two `int` components, `glm::ivec2`. -/
structure IVec2 where
  x : Int
  y : Int
deriving DecidableEq, Repr

/-- The functions of `<cmath>` and GLM that the program calls on `double`, and
the two conversions between `float` (`F`) and `double` (`K`). -/
structure Glm (K F : Type) where
  /-- The function `cos` of `<cmath>`. -/
  cos : K → K
  /-- The function `sin` of `<cmath>`. -/
  sin : K → K
  /-- The function `sqrt` of `<cmath>`. -/
  sqrt : K → K
  /-- The constant `glm::pi<double>()`. -/
  pi : K
  /-- The constant `glm::two_pi<double>()`. -/
  two_pi : K
  /-- The conversion of a `double` to `float`. -/
  toFloat : K → F
  /-- The conversion of a `float` to `double`. -/
  toDouble : F → K

section Scalars

variable {K F : Type}

/-- Componentwise conversion of a vector, as in `glm::vec3(glm::dvec3)`. -/
def Vec3.map {A B : Type} (c : A → B) (p : Vec3 A) : Vec3 B :=
  ⟨c p.x, c p.y, c p.z⟩

/-- Componentwise sum, `operator+` of `glm::dvec3`. -/
def Vec3.add [Add K] (a b : Vec3 K) : Vec3 K :=
  ⟨a.x + b.x, a.y + b.y, a.z + b.z⟩

/-- Componentwise difference, `operator-` of `glm::dvec3`. -/
def Vec3.sub [Sub K] (a b : Vec3 K) : Vec3 K :=
  ⟨a.x - b.x, a.y - b.y, a.z - b.z⟩

/-- Product with a scalar, `operator*(dvec3, double)`. -/
def Vec3.smul [Mul K] (a : Vec3 K) (s : K) : Vec3 K :=
  ⟨a.x * s, a.y * s, a.z * s⟩

/-- Quotient by a scalar, `operator/(dvec3, double)`. -/
def Vec3.sdiv [Div K] (a : Vec3 K) (s : K) : Vec3 K :=
  ⟨a.x / s, a.y / s, a.z / s⟩

/-- The function `glm::dot` on `dvec3`: the sum of the componentwise products. -/
def dot [Add K] [Mul K] (a b : Vec3 K) : K :=
  a.x * b.x + a.y * b.y + a.z * b.z

/-- The function `glm::cross` on `dvec3`. -/
def cross [Sub K] [Mul K] (a b : Vec3 K) : Vec3 K :=
  ⟨a.y * b.z - b.y * a.z, a.z * b.x - b.z * a.x, a.x * b.y - b.x * a.y⟩

/-- The function `glm::inversesqrt`: `1 / sqrt(x)`. -/
def inversesqrt [Div K] [IntCast K] (G : Glm K F) (a : K) : K :=
  ((1 : Int) : K) / G.sqrt a

/-- The function `glm::normalize`: `v * inversesqrt(dot(v, v))`. -/
def normalize [Add K] [Mul K] [Div K] [IntCast K] (G : Glm K F) (v : Vec3 K) : Vec3 K :=
  v.smul (inversesqrt G (dot v v))

/-- The function `glm::rotateY` of `glm/gtx/rotate_vector.hpp`:
`x = v.x * Cos + v.z * Sin`, `y = v.y`, `z = -v.x * Sin + v.z * Cos`. -/
def rotateY [Add K] [Mul K] [Neg K] (G : Glm K F) (v : Vec3 K) (angle : K) : Vec3 K :=
  let Cos := G.cos angle
  let Sin := G.sin angle
  ⟨v.x * Cos + v.z * Sin, v.y, -v.x * Sin + v.z * Cos⟩

/-! ## The curves of `main` -/

/-- The lambda `ParametricHalfCircle` (`main.cpp` 281-289). -/
def ParametricHalfCircle [Sub K] [Mul K] [OfScientific K] (G : Glm K F) (t : K) : Vec2 K :=
  let t := t - 0.5
  let t := t * G.pi
  ⟨G.cos t, G.sin t⟩

/-- The lambda `ParametricCircle` (`main.cpp` 291-304):
`dvec2(cos t, sin t) * r + c` with `c = (0.7, 0)` and `r = 0.25`. -/
def ParametricCircle [Add K] [Mul K] [IntCast K] [OfScientific K] (G : Glm K F) (t : K) :
    Vec2 K :=
  let t := t * G.two_pi
  let c : Vec2 K := ⟨0.7, ((0 : Int) : K)⟩
  let r : K := 0.25
  ⟨G.cos t * r + c.x, G.sin t * r + c.y⟩

/-- The lambda `ParametricSpikes` (`main.cpp` 306-319), `a = 2 + 4 * 4`. -/
def ParametricSpikes [Add K] [Sub K] [Mul K] [Div K] [IntCast K] [OfScientific K]
    (G : Glm K F) (t : K) : Vec2 K :=
  let t := t - 0.5
  let t := t * G.two_pi
  let c : Vec2 K := ⟨0.7, ((0 : Int) : K)⟩
  let r : K := 0.25
  let a : Int := 2 + 4 * 4
  ⟨(G.cos t + G.sin ((a : K) * t) / (a : K)) / 2.0 * r + c.x,
   (G.sin t + G.cos ((a : K) * t) / (a : K)) / 2.0 * r + c.y⟩

/-- The lambda `ParametricSpikyCircle` (`main.cpp` 321-332), `a = 1 + 2 * 6`. -/
def ParametricSpikyCircle [Add K] [Mul K] [Div K] [IntCast K] [OfScientific K]
    (G : Glm K F) (t : K) : Vec2 K :=
  let t := t * G.two_pi
  let c : Vec2 K := ⟨0.6, ((0 : Int) : K)⟩
  let r : K := 0.35
  let a : Int := 1 + 2 * 6
  ⟨(G.cos t + G.sin ((a : K) * t) / (a : K)) * r + c.x,
   (G.sin t + G.cos ((a : K) * t) / (a : K)) * r + c.y⟩

/-! ## `GenerateParametricShape` (`main.cpp` 135-198) -/

/-- The three output vectors of `GenerateParametricShape`: positions and
normals are `std::vector<glm::vec3>`, indices are `std::vector<GLuint>`. -/
structure Mesh (F : Type) where
  positions : List (Vec3 F)
  normals : List (Vec3 F)
  indices : List Nat
deriving DecidableEq, Repr

/-- Three empty vectors, what every call in `main` passes. -/
def Mesh.empty : Mesh F := ⟨[], [], []⟩

/-- The exception a call can end with. -/
inductive Error where
  /-- The exception `std::length_error` of `std::vector::reserve`. -/
  | length_error
deriving DecidableEq, Repr

/-- The call `xs.push_back(a)`. -/
def push_back {A : Type} (xs : List A) (a : A) : List A :=
  xs ++ [a]

/-- The call `xs.reserve(n)` with an `int` argument: the contents stay as they
are; the argument is converted to `size_type`, so a negative `n` becomes a
size above `max_size()` and the call throws `std::length_error`. -/
def reserve {A : Type} (xs : List A) (n : Int) : Except Error (List A) :=
  if n < 0 then Except.error Error.length_error else Except.ok xs

/-- The loop `for (int i = 0; i < n; ++i) body(i)` over a state `s`. -/
def forLoop {S : Type} (n : Int) (body : Int → S → S) (s : S) : S :=
  (List.range n.toNat).foldl (fun s (k : Nat) => body (k : Int) s) s

/-- The lambda `parametric_surface` (`main.cpp` 144-152):
`rotateY(dvec3(parametric_line(t), 0), r * two_pi)`. -/
def parametric_surface [Add K] [Mul K] [Neg K] [IntCast K] (G : Glm K F)
    (parametric_line : K → Vec2 K) (t r : K) : Vec3 K :=
  let p : Vec3 K := ⟨(parametric_line t).x, (parametric_line t).y, ((0 : Int) : K)⟩
  rotateY G p (r * G.two_pi)

/-- The lambda `VRtoIndex` (`main.cpp` 182-185); `%` of C++ truncates, as
`Int.tmod` does. -/
def VRtoIndex (vertical_segments rotation_segments : Int) (v r : Int) : Int :=
  (r.tmod rotation_segments) * vertical_segments + v

/-- The conversion of the `int` that `VRtoIndex` returns to `GLuint` at
`indices.push_back`.  The value is never negative where the loop body runs. -/
def toGLuint (i : Int) : Nat :=
  i.toNat

/-- The position pushed for the loop counters `v` and `r` (`main.cpp` 158),
converted from `dvec3` to `vec3` on storage. -/
def positionAt [Add K] [Mul K] [Div K] [Neg K] [IntCast K] (G : Glm K F)
    (parametric_line : K → Vec2 K) (vertical_segments rotation_segments : Int)
    (v r : Int) : Vec3 F :=
  Vec3.map G.toFloat
    (parametric_surface G parametric_line
      ((v : K) / ((vertical_segments - 1 : Int) : K))
      ((r : K) / ((rotation_segments : Int) : K)))

/-- The body of the normals loop (`main.cpp` 164-179) for the loop counters
`v` and `r`, converted from `dvec3` to `vec3` on storage. -/
def normalAt [Add K] [Sub K] [Mul K] [Div K] [Neg K] [IntCast K] [OfScientific K]
    (G : Glm K F) (parametric_line : K → Vec2 K)
    (vertical_segments rotation_segments : Int) (v r : Int) : Vec3 F :=
  let S := parametric_surface G parametric_line
  let nv : K := (v : K) / ((vertical_segments - 1 : Int) : K)
  let nr : K := (r : K) / ((rotation_segments : Int) : K)
  let epsilonv : K := ((1 : Int) : K) / ((vertical_segments - 1 : Int) : K)
  let epsilonr : K := ((1 : Int) : K) / ((rotation_segments : Int) : K)
  let to_next_v := (S (nv + epsilonv) nr).sub (S nv nr)
  let from_prev_v := (S nv nr).sub (S (nv - epsilonv) nr)
  let tangent_v := (to_next_v.add from_prev_v).sdiv 2.0
  let to_next_r := (S nv (nr + epsilonr)).sub (S nv nr)
  let from_prev_r := (S nv nr).sub (S nv (nr - epsilonr))
  let tangent_r := (to_next_r.add from_prev_r).sdiv 2.0
  let normal := normalize G (cross tangent_r tangent_v)
  Vec3.map G.toFloat normal

/-- The six `push_back` calls of the index loop body (`main.cpp` 190-196). -/
def pushQuad (vertical_segments rotation_segments : Int) (v r : Int)
    (indices : List Nat) : List Nat :=
  let idx := fun a b => toGLuint (VRtoIndex vertical_segments rotation_segments a b)
  let indices := push_back indices (idx (v + 1) r)
  let indices := push_back indices (idx v (r + 1))
  let indices := push_back indices (idx v r)
  let indices := push_back indices (idx (v + 1) r)
  let indices := push_back indices (idx (v + 1) (r + 1))
  push_back indices (idx v (r + 1))

/-- The function `GenerateParametricShape` (`main.cpp` 135-198).  The three
vectors are passed by reference in the source: `m` holds their contents before
the call, the result their contents after it. -/
def GenerateParametricShape [Add K] [Sub K] [Mul K] [Div K] [Neg K] [IntCast K]
    [OfScientific K] (G : Glm K F) (m : Mesh F) (parametric_line : K → Vec2 K)
    (vertical_segments rotation_segments : Int) : Except Error (Mesh F) := do
  let positions ← reserve m.positions (vertical_segments * rotation_segments)
  let positions :=
    forLoop rotation_segments (fun r ps =>
      forLoop vertical_segments (fun v ps =>
        push_back ps
          (positionAt G parametric_line vertical_segments rotation_segments v r)) ps)
      positions
  let normals ← reserve m.normals (vertical_segments * rotation_segments)
  let normals :=
    forLoop rotation_segments (fun r ns =>
      forLoop vertical_segments (fun v ns =>
        push_back ns
          (normalAt G parametric_line vertical_segments rotation_segments v r)) ns)
      normals
  let indices ← reserve m.indices (rotation_segments * (vertical_segments - 1) * 6)
  let indices :=
    forLoop rotation_segments (fun r ixs =>
      forLoop (vertical_segments - 1) (fun v ixs =>
        pushQuad vertical_segments rotation_segments v r ixs) ixs)
      indices
  return ⟨positions, normals, indices⟩

/-! ## Global state, callbacks and the frame loop (`main.cpp` 11-36, 200-227, 777-1046) -/

/-- The constant `GLFW_RELEASE` of `GLFW/glfw3.h`. -/
def GLFW_RELEASE : Int := 0

/-- The constant `GLFW_PRESS` of `GLFW/glfw3.h`. -/
def GLFW_PRESS : Int := 1

/-- The constant `GLFW_REPEAT` of `GLFW/glfw3.h`. -/
def GLFW_REPEAT : Int := 2

/-- The constant `GLFW_KEY_ESCAPE` of `GLFW/glfw3.h`. -/
def GLFW_KEY_ESCAPE : Int := 256

/-- The constant `GLFW_KEY_Q` of `GLFW/glfw3.h`. -/
def GLFW_KEY_Q : Int := 81

/-- The constant `GLFW_KEY_W` of `GLFW/glfw3.h`. -/
def GLFW_KEY_W : Int := 87

/-- The constant `GLFW_KEY_E` of `GLFW/glfw3.h`. -/
def GLFW_KEY_E : Int := 69

/-- The constant `GLFW_KEY_R` of `GLFW/glfw3.h`. -/
def GLFW_KEY_R : Int := 82

/-- The constant `GLFW_KEY_T` of `GLFW/glfw3.h`. -/
def GLFW_KEY_T : Int := 84

/-- The constant `GLFW_KEY_Y` of `GLFW/glfw3.h`. -/
def GLFW_KEY_Y : Int := 89

/-- The static struct `Globals` (`main.cpp` 11-15). -/
structure Globals (K : Type) where
  mouse_position : Vec2 K
  screen_dimensions : IVec2
  scene : Int
deriving DecidableEq, Repr

/-- The mutable state of the running program: `Globals`, the close flag of
the window (`glfwSetWindowShouldClose`) and the local `chasing_pos` of `main`. -/
structure State (K F : Type) where
  globals : Globals K
  window_should_close : Bool
  chasing_pos : Vec3 F
deriving DecidableEq, Repr

/-- The state when the frame loop starts: `Globals` as initialised at
`main.cpp` 11-15 (the static `mouse_position` is zero-initialised) and
`chasing_pos = glm::vec3(0,0,0)` (`main.cpp` 777). -/
def State.initial [IntCast K] [IntCast F] : State K F :=
  { globals :=
      { mouse_position := ⟨((0 : Int) : K), ((0 : Int) : K)⟩
        screen_dimensions := ⟨600, 600⟩
        scene := 0 }
    window_should_close := false
    chasing_pos := ⟨((0 : Int) : F), ((0 : Int) : F), ((0 : Int) : F)⟩ }

/-- The assignment `Globals.scene = n`. -/
def State.setScene (s : State K F) (n : Int) : State K F :=
  { s with globals := { s.globals with scene := n } }

/-- The function `CursorPositionCallback` (`main.cpp` 23-27). -/
def CursorPositionCallback (s : State K F) (x y : K) : State K F :=
  { s with globals := { s.globals with mouse_position := ⟨x, y⟩ } }

/-- The function `WindowSizeCallback` (`main.cpp` 30-36); `glViewport` writes
no program state. -/
def WindowSizeCallback (s : State K F) (width height : Int) : State K F :=
  { s with globals := { s.globals with screen_dimensions := ⟨width, height⟩ } }

/-- The function `key_callback` (`main.cpp` 200-227): seven `if` statements
in sequence. -/
def key_callback (s : State K F) (key scancode action mods : Int) : State K F :=
  let s := if key = GLFW_KEY_ESCAPE ∧ action = GLFW_PRESS
    then { s with window_should_close := true } else s
  let s := if key = GLFW_KEY_Q ∧ action = GLFW_PRESS then s.setScene 1 else s
  let s := if key = GLFW_KEY_W ∧ action = GLFW_PRESS then s.setScene 2 else s
  let s := if key = GLFW_KEY_E ∧ action = GLFW_PRESS then s.setScene 3 else s
  let s := if key = GLFW_KEY_R ∧ action = GLFW_PRESS then s.setScene 4 else s
  let s := if key = GLFW_KEY_T ∧ action = GLFW_PRESS then s.setScene 5 else s
  let s := if key = GLFW_KEY_Y ∧ action = GLFW_PRESS then s.setScene 6 else s
  s

/-- The local `mouse_position` of a frame (`main.cpp` 788-790):
`Globals.mouse_position / dvec2(Globals.screen_dimensions)`, then
`y = 1. - y`, then `mouse_position * 2. - 1.`. -/
def normalised_mouse_position [Sub K] [Mul K] [Div K] [IntCast K] [OfScientific K]
    (g : Globals K) : Vec2 K :=
  let mouse_position : Vec2 K :=
    ⟨g.mouse_position.x / ((g.screen_dimensions.x : Int) : K),
     g.mouse_position.y / ((g.screen_dimensions.y : Int) : K)⟩
  let mouse_position : Vec2 K := ⟨mouse_position.x, 1.0 - mouse_position.y⟩
  ⟨mouse_position.x * 2.0 - 1.0, mouse_position.y * 2.0 - 1.0⟩

/-- The function `glm::mix(x, y, a)` on `vec3` with a `double` weight:
`vec3(dvec3(x) * (1 - a) + dvec3(y) * a)`. -/
def mix [Add K] [Sub K] [Mul K] [IntCast K] (G : Glm K F) (x y : Vec3 F) (a : K) : Vec3 F :=
  Vec3.map G.toFloat
    (((Vec3.map G.toDouble x).smul (((1 : Int) : K) - a)).add
      ((Vec3.map G.toDouble y).smul a))

/-- The local `mouse_pos` of the scene 5 block (`main.cpp` 997):
`glm::vec3(mouse_position.x, mouse_position.y, 0)`. -/
def mouse_pos [Sub K] [Mul K] [Div K] [IntCast K] [OfScientific K] [IntCast F]
    (G : Glm K F) (g : Globals K) : Vec3 F :=
  ⟨G.toFloat (normalised_mouse_position g).x, G.toFloat (normalised_mouse_position g).y,
   ((0 : Int) : F)⟩

/-- What one iteration of the frame loop writes to the program state
(`main.cpp` 780-1036): only the scene 5 block assigns a variable,
`chasing_pos = glm::mix(mouse_pos, chasing_pos, 0.99)`. -/
def frame [Add K] [Sub K] [Mul K] [Div K] [IntCast K] [OfScientific K] [IntCast F]
    (G : Glm K F) (s : State K F) : State K F :=
  if s.globals.scene = 5 then
    { s with chasing_pos := mix G (mouse_pos G s.globals) s.chasing_pos 0.99 }
  else s

/-- What the loop reacts to: the three callbacks that `glfwPollEvents`
dispatches, and the rendering of a frame. -/
inductive Event (K : Type) where
  | key (key scancode action mods : Int)
  | cursor (x y : K)
  | resize (width height : Int)
  | frame

/-- One event applied to the state. -/
def step [Add K] [Sub K] [Mul K] [Div K] [IntCast K] [OfScientific K] [IntCast F]
    (G : Glm K F) (s : State K F) : Event K → State K F
  | Event.key key scancode action mods => key_callback s key scancode action mods
  | Event.cursor x y => CursorPositionCallback s x y
  | Event.resize width height => WindowSizeCallback s width height
  | Event.frame => frame G s

/-- A finite sequence of events applied in order. -/
def run [Add K] [Sub K] [Mul K] [Div K] [IntCast K] [OfScientific K] [IntCast F]
    (G : Glm K F) (s : State K F) (events : List (Event K)) : State K F :=
  events.foldl (step G) s

/-! ## Lengths, tangents and the specification of the normal -/

/-- The function `glm::length`: `sqrt(dot(v, v))`. -/
def length {T : Type} [Add T] [Mul T] (G : Glm T T) (v : Vec3 T) : T :=
  G.sqrt (dot v v)

/-- The function `glm::distance`: `length(p1 - p0)`. -/
def distance {T : Type} [Add T] [Sub T] [Mul T] (G : Glm T T) (p0 p1 : Vec3 T) : T :=
  length G (p1.sub p0)

/-- The local `tangent_v` of the normals loop (`main.cpp` 170-172) for the
loop counters `v` and `r`: the average of the forward and the backward
difference along the curve. -/
def tangent_vAt [Add K] [Sub K] [Mul K] [Div K] [Neg K] [IntCast K] [OfScientific K]
    (G : Glm K F) (parametric_line : K → Vec2 K)
    (vertical_segments rotation_segments : Int) (v r : Int) : Vec3 K :=
  let S := parametric_surface G parametric_line
  let nv : K := (v : K) / ((vertical_segments - 1 : Int) : K)
  let nr : K := (r : K) / ((rotation_segments : Int) : K)
  let epsilonv : K := ((1 : Int) : K) / ((vertical_segments - 1 : Int) : K)
  let to_next_v := (S (nv + epsilonv) nr).sub (S nv nr)
  let from_prev_v := (S nv nr).sub (S (nv - epsilonv) nr)
  (to_next_v.add from_prev_v).sdiv 2.0

/-- The local `tangent_r` of the normals loop (`main.cpp` 174-176) for the
loop counters `v` and `r`: the average of the forward and the backward
difference around the axis. -/
def tangent_rAt [Add K] [Sub K] [Mul K] [Div K] [Neg K] [IntCast K] [OfScientific K]
    (G : Glm K F) (parametric_line : K → Vec2 K)
    (vertical_segments rotation_segments : Int) (v r : Int) : Vec3 K :=
  let S := parametric_surface G parametric_line
  let nv : K := (v : K) / ((vertical_segments - 1 : Int) : K)
  let nr : K := (r : K) / ((rotation_segments : Int) : K)
  let epsilonr : K := ((1 : Int) : K) / ((rotation_segments : Int) : K)
  let to_next_r := (S nv (nr + epsilonr)).sub (S nv nr)
  let from_prev_r := (S nv nr).sub (S nv (nr - epsilonr))
  (to_next_r.add from_prev_r).sdiv 2.0

/-- The central difference of the specification (section 4.2, step 3):
`½·(a − b)`, componentwise. -/
def spec_central_difference [Sub K] [Mul K] [Div K] [OfNat K 1] [OfNat K 2]
    (a b : Vec3 K) : Vec3 K :=
  ⟨(1 / 2) * (a.x - b.x), (1 / 2) * (a.y - b.y), (1 / 2) * (a.z - b.z)⟩

/-- The tangent `T_v` of the specification (section 4.2, step 3):
`½·(S(v̂+ε_v, r̂) − S(v̂−ε_v, r̂))` with `v̂ = v/(V−1)`, `r̂ = r/R` and
`ε_v = 1/(V−1)`. -/
def spec_T_v [Add K] [Sub K] [Mul K] [Div K] [Neg K] [IntCast K] [OfNat K 1] [OfNat K 2]
    (G : Glm K F) (f : K → Vec2 K) (V R : Int) (v r : Int) : Vec3 K :=
  spec_central_difference
    (parametric_surface G f ((v : K) / ((V - 1 : Int) : K) + 1 / ((V - 1 : Int) : K))
      ((r : K) / ((R : Int) : K)))
    (parametric_surface G f ((v : K) / ((V - 1 : Int) : K) - 1 / ((V - 1 : Int) : K))
      ((r : K) / ((R : Int) : K)))

/-- The tangent `T_r` of the specification (section 4.2, step 3):
`½·(S(v̂, r̂+ε_r) − S(v̂, r̂−ε_r))` with `v̂ = v/(V−1)`, `r̂ = r/R` and
`ε_r = 1/R`. -/
def spec_T_r [Add K] [Sub K] [Mul K] [Div K] [Neg K] [IntCast K] [OfNat K 1] [OfNat K 2]
    (G : Glm K F) (f : K → Vec2 K) (V R : Int) (v r : Int) : Vec3 K :=
  spec_central_difference
    (parametric_surface G f ((v : K) / ((V - 1 : Int) : K))
      ((r : K) / ((R : Int) : K) + 1 / ((R : Int) : K)))
    (parametric_surface G f ((v : K) / ((V - 1 : Int) : K))
      ((r : K) / ((R : Int) : K) - 1 / ((R : Int) : K)))

/-- The normal of the specification (section 4.2, step 3):
`N = normalize(T_r × T_v)`. -/
def spec_normal [Add K] [Sub K] [Mul K] [Div K] [Neg K] [IntCast K] [OfNat K 1] [OfNat K 2]
    (G : Glm K F) (f : K → Vec2 K) (V R : Int) (v r : Int) : Vec3 K :=
  normalize G (cross (spec_T_r G f V R v r) (spec_T_v G f V R v r))

/-! ## Transforms of GLM on `float` -/

/-- Four components, `glm::vec4`. -/
structure Vec4 (T : Type) where
  x : T
  y : T
  z : T
  w : T
deriving DecidableEq, Repr

/-- Componentwise sum, `operator+` of `glm::vec4`. -/
def Vec4.add {T : Type} [Add T] (a b : Vec4 T) : Vec4 T :=
  ⟨a.x + b.x, a.y + b.y, a.z + b.z, a.w + b.w⟩

/-- Product with a scalar, `operator*(vec4, float)`. -/
def Vec4.smul {T : Type} [Mul T] (a : Vec4 T) (s : T) : Vec4 T :=
  ⟨a.x * s, a.y * s, a.z * s, a.w * s⟩

/-- Four columns, `glm::mat4`; `c0` is `m[0]`. -/
structure Mat4 (T : Type) where
  c0 : Vec4 T
  c1 : Vec4 T
  c2 : Vec4 T
  c3 : Vec4 T
deriving DecidableEq, Repr

/-- The constructor `glm::mat4(s)`: `s` on the diagonal, zero elsewhere. -/
def Mat4.diagonal {T : Type} [IntCast T] (s : T) : Mat4 T :=
  let z : T := ((0 : Int) : T)
  ⟨⟨s, z, z, z⟩, ⟨z, s, z, z⟩, ⟨z, z, s, z⟩, ⟨z, z, z, s⟩⟩

/-- The product `m1 * m2` of `glm::mat4`: column `j` is
`m1[0] * m2[j][0] + m1[1] * m2[j][1] + m1[2] * m2[j][2] + m1[3] * m2[j][3]`. -/
def Mat4.mul {T : Type} [Add T] [Mul T] (m1 m2 : Mat4 T) : Mat4 T :=
  let col := fun (b : Vec4 T) =>
    (((m1.c0.smul b.x).add (m1.c1.smul b.y)).add (m1.c2.smul b.z)).add (m1.c3.smul b.w)
  ⟨col m2.c0, col m2.c1, col m2.c2, col m2.c3⟩

/-- The function `glm::scale(m, v)`: the first three columns scaled. -/
def scale {T : Type} [Mul T] (m : Mat4 T) (v : Vec3 T) : Mat4 T :=
  ⟨m.c0.smul v.x, m.c1.smul v.y, m.c2.smul v.z, m.c3⟩

/-- The function `glm::translate(m, v)`: the last column becomes
`m[0] * v[0] + m[1] * v[1] + m[2] * v[2] + m[3]`. -/
def translate {T : Type} [Add T] [Mul T] (m : Mat4 T) (v : Vec3 T) : Mat4 T :=
  ⟨m.c0, m.c1, m.c2,
   (((m.c0.smul v.x).add (m.c1.smul v.y)).add (m.c2.smul v.z)).add m.c3⟩

/-- The function `glm::rotate(m, angle, v)` of `glm/ext/matrix_transform.inl`:
the first three columns are combined with the entries of the rotation about
the normalised axis, the last column is `m[3]`. -/
def rotate {T : Type} [Add T] [Sub T] [Mul T] [Div T] [IntCast T] (Gf : Glm T T)
    (m : Mat4 T) (angle : T) (v : Vec3 T) : Mat4 T :=
  let c := Gf.cos angle
  let s := Gf.sin angle
  let axis := normalize Gf v
  let temp : Vec3 T :=
    ⟨(((1 : Int) : T) - c) * axis.x, (((1 : Int) : T) - c) * axis.y,
     (((1 : Int) : T) - c) * axis.z⟩
  let r00 := c + temp.x * axis.x
  let r01 := temp.x * axis.y + s * axis.z
  let r02 := temp.x * axis.z - s * axis.y
  let r10 := temp.y * axis.x - s * axis.z
  let r11 := c + temp.y * axis.y
  let r12 := temp.y * axis.z + s * axis.x
  let r20 := temp.z * axis.x + s * axis.y
  let r21 := temp.z * axis.y - s * axis.x
  let r22 := c + temp.z * axis.z
  ⟨((m.c0.smul r00).add (m.c1.smul r01)).add (m.c2.smul r02),
   ((m.c0.smul r10).add (m.c1.smul r11)).add (m.c2.smul r12),
   ((m.c0.smul r20).add (m.c1.smul r21)).add (m.c2.smul r22),
   m.c3⟩

/-- The function `glm::radians` on `float`: degrees times `π / 180`. -/
def radians {T : Type} [Mul T] [OfScientific T] (degrees : T) : T :=
  degrees * 0.01745329251994329576923690768489

/-- The line `gl_Position = u_transform * vec4(a_position, 1)` of every vertex
shader (`main.cpp` 401, 441, 492, 569, 630, 714). -/
def gl_Position {T : Type} [Add T] [Mul T] [IntCast T] (u_transform : Mat4 T)
    (a_position : Vec3 T) : Vec4 T :=
  (((u_transform.c0.smul a_position.x).add (u_transform.c1.smul a_position.y)).add
    (u_transform.c2.smul a_position.z)).add (u_transform.c3.smul ((1 : Int) : T))

/-! ## The OpenGL calls of a frame (`main.cpp` 780-1036) -/

/-- The six shader programs that `main` links (`main.cpp` 387-758). -/
inductive Program where
  | program
  | program_1
  | program_2
  | program_3
  | program_5
  | program_6
deriving DecidableEq, Repr

/-- The names the specification (sections 3 and 4.4) gives the shading
programs. -/
inductive ShadingProgram where
  | flat
  | normal_color
  | directional
  | directional_piecewise
  | two_light_mouse
  | rich_mouse
deriving DecidableEq, Repr

/-- The shading program of the specification that each linked program is, read
off its fragment shader: `program` writes the constant `vec3(1, 1, 1)`
(`main.cpp` 407-419); `program_6` writes the normalised product of the normal
and the ambient weight 2 (447-465); `program_1` has the green ambient, the blue
directional light and the red point light at the mouse (498-547); `program_2`
has the grey surface, one directional light and shininess 64 (575-608);
`program_3` takes `u_color`, picks the shininess by quadrant and adds the point
light at the mouse (636-692); `program_5` takes `u_color` with one directional
light (720-756). -/
def Program.shading : Program → ShadingProgram
  | Program.program => ShadingProgram.flat
  | Program.program_1 => ShadingProgram.rich_mouse
  | Program.program_2 => ShadingProgram.directional
  | Program.program_3 => ShadingProgram.directional_piecewise
  | Program.program_5 => ShadingProgram.two_light_mouse
  | Program.program_6 => ShadingProgram.normal_color

/-- The second argument of `glPolygonMode`: `GL_LINE` is wireframe, `GL_FILL`
is filled. -/
inductive PolygonMode where
  | GL_LINE
  | GL_FILL
deriving DecidableEq, Repr

/-- The five vertex array objects that `main` builds (`main.cpp` 340-377). -/
inductive VAO where
  | shape_VAO
  | shape1_VAO
  | shape2_VAO
  | shape3_VAO
  | sixth_VAO
deriving DecidableEq, Repr

/-- The names the specification (section 4.1) gives the curves. -/
inductive Curve where
  | circle
  | half_circle
  | spikes
  | spiky_circle
deriving DecidableEq, Repr

/-- The curve and the resolutions `(V, R)` of the call of
`GenerateParametricShape` that fills each vertex array object
(`main.cpp` 340, 348, 356, 364, 376). -/
def VAO.mesh : VAO → Curve × Int × Int
  | VAO.shape_VAO => (Curve.circle, 16, 16)
  | VAO.shape1_VAO => (Curve.half_circle, 16, 16)
  | VAO.shape2_VAO => (Curve.spiky_circle, 60, 20)
  | VAO.shape3_VAO => (Curve.spikes, 12, 6)
  | VAO.sixth_VAO => (Curve.spiky_circle, 1024, 1024)

/-- The three uniforms the shaders declare. -/
inductive Uniform where
  | u_transform
  | u_mouse_position
  | u_color
deriving DecidableEq, Repr

/-- The uniform locations that `main` looks up (`main.cpp` 765-775). -/
inductive UniformLocation where
  | u_transform_location
  | u_transform_location_1
  | u_transform_location_2
  | u_transform_location_3
  | u_transform_location_5
  | u_transform_location_6
  | u_mouse_position_location_3
  | u_mouse_position_location_1
  | color_location
  | color_location_5
deriving DecidableEq, Repr

/-- The program each location was looked up in, the first argument of
`glGetUniformLocation` (`main.cpp` 765-775). -/
def UniformLocation.owner : UniformLocation → Program
  | UniformLocation.u_transform_location => Program.program
  | UniformLocation.u_transform_location_1 => Program.program_1
  | UniformLocation.u_transform_location_2 => Program.program_2
  | UniformLocation.u_transform_location_3 => Program.program_3
  | UniformLocation.u_transform_location_5 => Program.program_5
  | UniformLocation.u_transform_location_6 => Program.program_6
  | UniformLocation.u_mouse_position_location_3 => Program.program_3
  | UniformLocation.u_mouse_position_location_1 => Program.program_1
  | UniformLocation.color_location => Program.program_3
  | UniformLocation.color_location_5 => Program.program_5

/-- The uniform each location was looked up for, the second argument of
`glGetUniformLocation` (`main.cpp` 765-775). -/
def UniformLocation.uniform : UniformLocation → Uniform
  | UniformLocation.u_transform_location => Uniform.u_transform
  | UniformLocation.u_transform_location_1 => Uniform.u_transform
  | UniformLocation.u_transform_location_2 => Uniform.u_transform
  | UniformLocation.u_transform_location_3 => Uniform.u_transform
  | UniformLocation.u_transform_location_5 => Uniform.u_transform
  | UniformLocation.u_transform_location_6 => Uniform.u_transform
  | UniformLocation.u_mouse_position_location_3 => Uniform.u_mouse_position
  | UniformLocation.u_mouse_position_location_1 => Uniform.u_mouse_position
  | UniformLocation.color_location => Uniform.u_color
  | UniformLocation.color_location_5 => Uniform.u_color

/-- The OpenGL calls of the scene blocks.  The argument of `glDrawElements` is
the vertex array object whose `element_array_count` is passed. -/
inductive GLCall (T : Type) where
  | glUseProgram (p : Program)
  | glPolygonMode (mode : PolygonMode)
  | glBindVertexArray (array : VAO)
  | glUniformMatrix4fv (location : UniformLocation) (value : Mat4 T)
  | glUniform3fv (location : UniformLocation) (value : Vec3 T)
  | glUniform2fv (location : UniformLocation) (value : Vec2 T)
  | glDrawElements (count : VAO)

/-- The part of the OpenGL context the calls read and write: the program in
use, the polygon mode, the bound vertex array object and the uniform values of
each program. -/
structure GLState (T : Type) where
  program : Option Program
  polygon_mode : PolygonMode
  vertex_array : Option VAO
  u_transform : Program → Option (Mat4 T)
  u_color : Program → Option (Vec3 T)
  u_mouse_position : Program → Option (Vec2 T)

/-- What one `glDrawElements` call draws with: the context at the call. -/
structure Draw (T : Type) where
  program : Option Program
  polygon_mode : PolygonMode
  vertex_array : Option VAO
  count : VAO
  u_transform : Option (Mat4 T)
  u_color : Option (Vec3 T)
  u_mouse_position : Option (Vec2 T)

/-- The context a call leaves.  A `glUniform` call sets the uniform of the
program in use; with a location of another program or another uniform it is
modelled as changing nothing. -/
def GLState.exec {T : Type} (st : GLState T) : GLCall T → GLState T
  | GLCall.glUseProgram p => { st with program := some p }
  | GLCall.glPolygonMode mode => { st with polygon_mode := mode }
  | GLCall.glBindVertexArray array => { st with vertex_array := some array }
  | GLCall.glUniformMatrix4fv location value =>
    if st.program = some location.owner ∧ location.uniform = Uniform.u_transform then
      { st with u_transform := fun p => if p = location.owner then some value
                                        else st.u_transform p }
    else st
  | GLCall.glUniform3fv location value =>
    if st.program = some location.owner ∧ location.uniform = Uniform.u_color then
      { st with u_color := fun p => if p = location.owner then some value
                                    else st.u_color p }
    else st
  | GLCall.glUniform2fv location value =>
    if st.program = some location.owner ∧ location.uniform = Uniform.u_mouse_position then
      { st with u_mouse_position := fun p => if p = location.owner then some value
                                             else st.u_mouse_position p }
    else st
  | GLCall.glDrawElements _ => st

/-- The draws of a sequence of calls, in order, each with the context it is
issued in. -/
def drawn {T : Type} (st : GLState T) : List (GLCall T) → List (Draw T)
  | [] => []
  | GLCall.glDrawElements count :: calls =>
    { program := st.program
      polygon_mode := st.polygon_mode
      vertex_array := st.vertex_array
      count := count
      u_transform := st.program.bind st.u_transform
      u_color := st.program.bind st.u_color
      u_mouse_position := st.program.bind st.u_mouse_position } :: drawn st calls
  | call :: calls => drawn (st.exec call) calls

/-- The four transforms of the blocks of scenes 0 to 4 (`main.cpp` 797-808,
repeated at 833-844, 873-884, 910-921 and 949-960): the identity scaled by
0.4, translated, and rotated about `(1, 1, 0)` by `float(glfwGetTime() * 10)`
degrees.  The result is `(transform, transform2, transform3, transform4)`;
`glfwGetTime k` is what the call number `k` of the frame returns. -/
def quad_transforms [Mul K] [IntCast K] [OfScientific K] [Neg K] [Add F] [Sub F] [Mul F]
    [Div F] [IntCast F] [OfScientific F] (G : Glm K F) (Gf : Glm F F) (glfwGetTime : Nat → K) :
    Mat4 F × Mat4 F × Mat4 F × Mat4 F :=
  let zero : F := ((0 : Int) : F)
  let one : F := ((1 : Int) : F)
  let transform : Mat4 F := Mat4.diagonal (G.toFloat 1.0)
  let transform := scale transform ⟨G.toFloat 0.4, G.toFloat 0.4, G.toFloat 0.4⟩
  let transform := translate transform ⟨G.toFloat 1.2, G.toFloat 1.2, zero⟩
  let transform3 := translate transform ⟨zero, G.toFloat (-2.4), zero⟩
  let transform2 := translate transform ⟨G.toFloat (-2.2), G.toFloat 0.0, zero⟩
  let transform4 := translate transform ⟨G.toFloat (-2.1), G.toFloat (-2.3), zero⟩
  let angle := fun (k : Nat) => radians (G.toFloat (glfwGetTime k * ((10 : Int) : K)))
  let transform := rotate Gf transform (angle 0) ⟨one, one, zero⟩
  let transform2 := rotate Gf transform2 (angle 1) ⟨one, one, zero⟩
  let transform3 := rotate Gf transform3 (angle 2) ⟨one, one, zero⟩
  let transform4 := rotate Gf transform4 (angle 3) ⟨one, one, zero⟩
  (transform, transform2, transform3, transform4)

/-- The four draws of the blocks of scenes 0 to 4 (`main.cpp` 810-824 and the
four repetitions): `shape_VAO` with `transform`, `shape1_VAO` with
`transform2`, `shape3_VAO` with `transform3`, `shape2_VAO` with `transform4`.
With `colors` given (scene 4) each draw sets `u_color` first. -/
def quad_draws (location : UniformLocation) (transforms : Mat4 F × Mat4 F × Mat4 F × Mat4 F)
    (colors : Option (UniformLocation × Vec3 F × Vec3 F × Vec3 F × Vec3 F)) :
    List (GLCall F) :=
  let color := fun (pick : Vec3 F × Vec3 F × Vec3 F × Vec3 F → Vec3 F) =>
    match colors with
    | none => []
    | some (loc, cs) => [GLCall.glUniform3fv loc (pick cs)]
  [GLCall.glBindVertexArray VAO.shape_VAO,
   GLCall.glUniformMatrix4fv location transforms.1] ++ color (fun cs => cs.1) ++
  [GLCall.glDrawElements VAO.shape_VAO,
   GLCall.glBindVertexArray VAO.shape1_VAO,
   GLCall.glUniformMatrix4fv location transforms.2.1] ++ color (fun cs => cs.2.1) ++
  [GLCall.glDrawElements VAO.shape1_VAO,
   GLCall.glBindVertexArray VAO.shape3_VAO,
   GLCall.glUniformMatrix4fv location transforms.2.2.1] ++ color (fun cs => cs.2.2.1) ++
  [GLCall.glDrawElements VAO.shape3_VAO,
   GLCall.glBindVertexArray VAO.shape2_VAO,
   GLCall.glUniformMatrix4fv location transforms.2.2.2] ++ color (fun cs => cs.2.2.2) ++
  [GLCall.glDrawElements VAO.shape2_VAO]

/-- The colour of the leader in the scene 5 block (`main.cpp` 1006-1015):
green when `glm::distance(chasing_pos, mouse_pos) > 0.6`, red otherwise; the
`float` distance is compared as a `double`. -/
def leader_color [LT K] [DecidableRel (fun a b : K => a < b)] [OfScientific K] [Add F]
    [Sub F] [Mul F] [IntCast F] (G : Glm K F) (Gf : Glm F F) (chasing_pos mouse_pos : Vec3 F) :
    Vec3 F :=
  if (0.6 : K) < G.toDouble (distance Gf chasing_pos mouse_pos) then
    ⟨((0 : Int) : F), ((1 : Int) : F), ((0 : Int) : F)⟩
  else
    ⟨((1 : Int) : F), ((0 : Int) : F), ((0 : Int) : F)⟩

/-- The OpenGL calls of one iteration of the frame loop for the state `s` at
its start (`main.cpp` 792-1036): seven `if (Globals.scene == n)` blocks in
sequence.  `glfwGetTime k` is what the call number `k` of the frame returns. -/
def render [Add K] [Sub K] [Mul K] [Div K] [Neg K] [IntCast K] [OfScientific K] [LT K]
    [DecidableRel (fun a b : K => a < b)] [Add F] [Sub F] [Mul F] [Div F] [IntCast F]
    [OfScientific F] (G : Glm K F) (Gf : Glm F F) (glfwGetTime : Nat → K) (s : State K F) :
    List (GLCall F) :=
  let zero : F := ((0 : Int) : F)
  let one : F := ((1 : Int) : F)
  let mouse_position := normalised_mouse_position s.globals
  let mouse_uniform : Vec2 F := ⟨G.toFloat mouse_position.x, G.toFloat mouse_position.y⟩
  let transforms := quad_transforms G Gf glfwGetTime
  (if s.globals.scene = 0 then
    [GLCall.glUseProgram Program.program, GLCall.glPolygonMode PolygonMode.GL_LINE] ++
      quad_draws UniformLocation.u_transform_location transforms none
   else []) ++
  (if s.globals.scene = 1 then
    [GLCall.glUseProgram Program.program, GLCall.glPolygonMode PolygonMode.GL_LINE] ++
      quad_draws UniformLocation.u_transform_location transforms none
   else []) ++
  (if s.globals.scene = 2 then
    [GLCall.glUseProgram Program.program_6, GLCall.glPolygonMode PolygonMode.GL_FILL] ++
      quad_draws UniformLocation.u_transform_location_6 transforms none
   else []) ++
  (if s.globals.scene = 3 then
    [GLCall.glUseProgram Program.program_2, GLCall.glPolygonMode PolygonMode.GL_FILL] ++
      quad_draws UniformLocation.u_transform_location_2 transforms none
   else []) ++
  (if s.globals.scene = 4 then
    [GLCall.glUseProgram Program.program_3, GLCall.glPolygonMode PolygonMode.GL_FILL,
     GLCall.glUniform2fv UniformLocation.u_mouse_position_location_3 mouse_uniform] ++
      quad_draws UniformLocation.u_transform_location_3 transforms
        (some (UniformLocation.color_location,
          ⟨one, zero, zero⟩, ⟨G.toFloat 0.5, G.toFloat 0.5, G.toFloat 0.5⟩,
          ⟨zero, zero, one⟩, ⟨zero, one, zero⟩))
   else []) ++
  (if s.globals.scene = 5 then
    let scale5 : Mat4 F :=
      scale (Mat4.diagonal one) ⟨G.toFloat 0.3, G.toFloat 0.3, G.toFloat 0.3⟩
    let translate5 : Mat4 F := translate (Mat4.diagonal one) (mouse_pos G s.globals)
    let transform := translate5.mul scale5
    let chasing_pos := mix G (mouse_pos G s.globals) s.chasing_pos 0.99
    let chasing_translate : Mat4 F := translate (Mat4.diagonal one) chasing_pos
    let chasing_transform := chasing_translate.mul scale5
    [GLCall.glUseProgram Program.program_5, GLCall.glPolygonMode PolygonMode.GL_FILL,
     GLCall.glBindVertexArray VAO.shape1_VAO,
     GLCall.glUniformMatrix4fv UniformLocation.u_transform_location_5 chasing_transform,
     GLCall.glUniform3fv UniformLocation.color_location_5
       ⟨G.toFloat 0.5, G.toFloat 0.5, G.toFloat 0.5⟩,
     GLCall.glDrawElements VAO.shape1_VAO,
     GLCall.glUniformMatrix4fv UniformLocation.u_transform_location_5 transform,
     GLCall.glUniform3fv UniformLocation.color_location_5
       (leader_color G Gf chasing_pos (mouse_pos G s.globals)),
     GLCall.glDrawElements VAO.shape1_VAO]
   else []) ++
  (if s.globals.scene = 6 then
    let transform : Mat4 F := Mat4.diagonal (G.toFloat 1.0)
    let transform := scale transform ⟨G.toFloat 0.6, G.toFloat 0.6, G.toFloat 0.6⟩
    let transform := rotate Gf transform
      (radians (G.toFloat (glfwGetTime 0 * ((10 : Int) : K)))) ⟨one, one, zero⟩
    [GLCall.glUseProgram Program.program_1,
     GLCall.glUniform2fv UniformLocation.u_mouse_position_location_1 mouse_uniform,
     GLCall.glUniformMatrix4fv UniformLocation.u_transform_location_1 transform,
     GLCall.glPolygonMode PolygonMode.GL_FILL,
     GLCall.glBindVertexArray VAO.sixth_VAO,
     GLCall.glDrawElements VAO.sixth_VAO]
   else [])

/-- The OpenGL context before the first call of the program: no program in
use, the polygon mode `GL_FILL` that OpenGL starts with, no vertex array
object bound, no uniform set. -/
def GLState.initial {T : Type} : GLState T :=
  { program := none
    polygon_mode := PolygonMode.GL_FILL
    vertex_array := none
    u_transform := fun _ => none
    u_color := fun _ => none
    u_mouse_position := fun _ => none }

/-- What a draw is in the words of the specification: the shading program in
use, the polygon mode, the mesh of the bound vertex array object and the mesh
whose index count is drawn. -/
def Draw.summary {T : Type} (d : Draw T) :
    Option ShadingProgram × PolygonMode × Option (Curve × Int × Int) × (Curve × Int × Int) :=
  (d.program.map Program.shading, d.polygon_mode, d.vertex_array.map VAO.mesh, d.count.mesh)

/-! ## Triangles of an index list -/

/-- The directed edge number `e` (0, 1 or 2) of triangle number `t` of an
index list drawn with `GL_TRIANGLES`: triangle `t` is made of the entries
`3t`, `3t + 1`, `3t + 2`, and edge `e` goes from entry `e` of the triangle to
the cyclically next one. -/
def directedEdge (indices : List Nat) (t e : Nat) : Option (Nat × Nat) :=
  match indices[3 * t + e % 3]?, indices[3 * t + (e + 1) % 3]? with
  | some a, some b => some (a, b)
  | _, _ => none

/-- The two ends, each as (row, column), of directed edge `k` of the quad
with rows `v`, `v + 1` and columns `r`, `c`: edges 0, 1, 2 are those of the
first triangle `(v+1,r), (v,c), (v,r)` and edges 3, 4, 5 those of the second
triangle `(v+1,r), (v+1,c), (v,c)` that the index loop pushes. -/
def quadEdge (v r c : Nat) : Nat → (Nat × Nat) × (Nat × Nat)
  | 0 => ((v + 1, r), (v, c))
  | 1 => ((v, c), (v, r))
  | 2 => ((v, r), (v + 1, r))
  | 3 => ((v + 1, r), (v + 1, c))
  | 4 => ((v + 1, c), (v, c))
  | _ => ((v, c), (v + 1, r))

/-- The pair of vertex slots of a pair of grid coordinates: the vertex of
row `a` and column `b` has the slot `b * V + a`. -/
def slotPair (nV : Nat) (p : (Nat × Nat) × (Nat × Nat)) : Nat × Nat :=
  (p.1.2 * nV + p.1.1, p.2.2 * nV + p.2.1)

end Scalars


/-! ## Loops as lists -/

section LoopLemmas

variable {A : Type}

/-- A loop whose body appends a block that depends on the counter only appends
the blocks in the order of the counter. -/
theorem forLoop_append (n : Int) (body : Int → List A → List A) (blk : Int → List A)
    (h : ∀ i xs, body i xs = xs ++ blk i) (xs : List A) :
    forLoop n body xs = xs ++ (List.range n.toNat).flatMap (fun (k : Nat) => blk (k : Int)) := by
  unfold forLoop
  induction n.toNat with
  | zero => simp
  | succ N ih =>
    rw [List.range_succ, List.foldl_append, ih]
    simp [h, List.flatMap_append]

/-- A loop of `push_back` calls appends one element for each counter value. -/
theorem forLoop_push_back (n : Int) (g : Int → A) (xs : List A) :
    forLoop n (fun i ys => push_back ys (g i)) xs
      = xs ++ (List.range n.toNat).map (fun (k : Nat) => g (k : Int)) := by
  rw [forLoop_append n (fun i ys => push_back ys (g i)) (fun i => [g i]) (fun _ _ => rfl) xs]
  congr 1
  induction n.toNat with
  | zero => rfl
  | succ N ih => simp [List.range_succ, ih]

/-- Blocks of one length `c` add up to `n * c` elements. -/
theorem length_flatMap_range (blk : Nat → List A) (c : Nat)
    (hc : ∀ i, (blk i).length = c) (n : Nat) :
    ((List.range n).flatMap blk).length = n * c := by
  induction n with
  | zero => simp
  | succ N ih =>
    rw [List.range_succ, List.flatMap_append, List.length_append, ih]
    simp [hc, Nat.succ_mul]

/-- Element `j` of block `i` sits at offset `i * c + j` when every block has
length `c`. -/
theorem getElem?_flatMap_range (blk : Nat → List A) (c : Nat)
    (hc : ∀ i, (blk i).length = c) (n i j : Nat) (hi : i < n) (hj : j < c) :
    ((List.range n).flatMap blk)[i * c + j]? = (blk i)[j]? := by
  induction n with
  | zero => omega
  | succ N ih =>
    rw [List.range_succ, List.flatMap_append]
    have hlen := length_flatMap_range blk c hc N
    rcases Nat.lt_succ_iff_lt_or_eq.mp hi with hlt | heq
    · have hb : i * c + j < ((List.range N).flatMap blk).length := by
        rw [hlen]
        calc i * c + j < i * c + c := by omega
          _ = (i + 1) * c := by rw [Nat.succ_mul]
          _ ≤ N * c := Nat.mul_le_mul_right c hlt
      rw [List.getElem?_append_left hb]
      exact ih hlt
    · subst heq
      have hb : ((List.range i).flatMap blk).length ≤ i * c + j := by
        rw [hlen]; omega
      rw [List.getElem?_append_right hb, hlen]
      simp

end LoopLemmas

/-! ## The contents `GenerateParametricShape` leaves -/

section Tessellator

variable {K F : Type} [Add K] [Sub K] [Mul K] [Div K] [Neg K] [IntCast K] [OfScientific K]

/-- The six `push_back` calls append six values to whatever is there. -/
theorem pushQuad_append (V R v r : Int) (xs : List Nat) :
    pushQuad V R v r xs = xs ++ pushQuad V R v r [] := by
  simp [pushQuad, push_back]

/-- The six `push_back` calls append exactly six values. -/
theorem length_pushQuad_nil (V R v r : Int) : (pushQuad V R v r []).length = 6 := by
  simp [pushQuad, push_back]

/-- The call as a closed form: it throws when an argument of `reserve` is
negative, and otherwise appends to each vector one block for each value of the
outer counter `r`, made of one entry for each value of the inner counter `v`. -/
theorem GenerateParametricShape_eq (G : Glm K F) (m : Mesh F) (f : K → Vec2 K) (V R : Int) :
    GenerateParametricShape G m f V R =
      if V * R < 0 then Except.error Error.length_error
      else if R * (V - 1) * 6 < 0 then Except.error Error.length_error
      else Except.ok
        { positions := m.positions ++ (List.range R.toNat).flatMap (fun (r : Nat) =>
            (List.range V.toNat).map (fun (v : Nat) => positionAt G f V R v r))
          normals := m.normals ++ (List.range R.toNat).flatMap (fun (r : Nat) =>
            (List.range V.toNat).map (fun (v : Nat) => normalAt G f V R v r))
          indices := m.indices ++ (List.range R.toNat).flatMap (fun (r : Nat) =>
            (List.range (V - 1).toNat).flatMap (fun (v : Nat) => pushQuad V R v r [])) } := by
  have hp : ∀ (g : Int → Int → Vec3 F) (xs : List (Vec3 F)),
      forLoop R (fun r ps => forLoop V (fun v ps => push_back ps (g v r)) ps) xs
        = xs ++ (List.range R.toNat).flatMap (fun (r : Nat) =>
            (List.range V.toNat).map (fun (v : Nat) => g v r)) := by
    intro g xs
    exact forLoop_append R _ (fun r => (List.range V.toNat).map (fun (v : Nat) => g v r))
      (fun r ys => forLoop_push_back V (fun v => g v r) ys) xs
  have hi : ∀ xs : List Nat,
      forLoop R (fun r ixs => forLoop (V - 1) (fun v ixs => pushQuad V R v r ixs) ixs) xs
        = xs ++ (List.range R.toNat).flatMap (fun (r : Nat) =>
            (List.range (V - 1).toNat).flatMap (fun (v : Nat) => pushQuad V R v r [])) := by
    intro xs
    exact forLoop_append R _
      (fun r => (List.range (V - 1).toNat).flatMap (fun (v : Nat) => pushQuad V R v r []))
      (fun r ys => forLoop_append (V - 1) _ (fun v => pushQuad V R v r [])
        (fun v zs => pushQuad_append V R v r zs) ys) xs
  unfold GenerateParametricShape reserve
  by_cases h1 : V * R < 0
  · simp only [h1, if_true]
    rfl
  · by_cases h2 : R * (V - 1) * 6 < 0
    · simp only [h1, h2, if_true, if_false]
      rfl
    · simp only [h1, h2, if_false]
      rw [← hp, ← hp, ← hi]
      rfl

/-- With at least one row and no negative column count neither `reserve`
throws, and the call returns the appended vectors. -/
theorem GenerateParametricShape_ok (G : Glm K F) (m : Mesh F) (f : K → Vec2 K) (V R : Int)
    (hV : 1 ≤ V) (hR : 0 ≤ R) :
    GenerateParametricShape G m f V R = Except.ok
      { positions := m.positions ++ (List.range R.toNat).flatMap (fun (r : Nat) =>
          (List.range V.toNat).map (fun (v : Nat) => positionAt G f V R v r))
        normals := m.normals ++ (List.range R.toNat).flatMap (fun (r : Nat) =>
          (List.range V.toNat).map (fun (v : Nat) => normalAt G f V R v r))
        indices := m.indices ++ (List.range R.toNat).flatMap (fun (r : Nat) =>
          (List.range (V - 1).toNat).flatMap (fun (v : Nat) => pushQuad V R v r [])) } := by
  have h1 : ¬ V * R < 0 := not_lt.mpr (Int.mul_nonneg (by omega) hR)
  have h2 : ¬ R * (V - 1) * 6 < 0 :=
    not_lt.mpr (Int.mul_nonneg (Int.mul_nonneg hR (by omega)) (by decide))
  rw [GenerateParametricShape_eq, if_neg h1, if_neg h2]

/-- The remainder `r % R` of C++ is `r` itself on a column `0 ≤ r < R`. -/
theorem VRtoIndex_of_lt (V R v r : Int) (h0 : 0 ≤ r) (hr : r < R) :
    VRtoIndex V R v r = r * V + v := by
  unfold VRtoIndex
  rw [Int.tmod_eq_of_lt h0 hr]

/-- Column `R` is column `0`: the remainder `R % R` is zero. -/
theorem VRtoIndex_wrap (V R v : Int) : VRtoIndex V R v R = v := by
  unfold VRtoIndex
  simp

/-- The value of `VRtoIndex` on a row `0 ≤ v < V` and a column `0 ≤ r ≤ R` of
a grid with `0 < R` columns lies in `[0, V * R)`. -/
theorem VRtoIndex_bounds (V R v r : Int) (hR : 0 < R) (hv0 : 0 ≤ v) (hv : v < V)
    (hr0 : 0 ≤ r) (hr : r ≤ R) : 0 ≤ VRtoIndex V R v r ∧ VRtoIndex V R v r < V * R := by
  rcases lt_or_eq_of_le hr with hlt | heq
  · rw [VRtoIndex_of_lt V R v r hr0 hlt]
    constructor
    · have := Int.mul_nonneg hr0 (le_trans hv0 (le_of_lt hv))
      linarith
    · have h1 : (r + 1) * V ≤ R * V :=
        Int.mul_le_mul_of_nonneg_right (by omega) (by omega)
      have h2 : (r + 1) * V = r * V + V := by ring
      have h3 : V * R = R * V := by ring
      linarith
  · subst heq
    rw [VRtoIndex_wrap]
    refine ⟨hv0, ?_⟩
    have hr1 : (1 : Int) ≤ r := by omega
    have h1 : V * 1 ≤ V * r := Int.mul_le_mul_of_nonneg_left hr1 (by omega)
    linarith

/-- Every value one quad pushes is below `V * R`. -/
theorem mem_pushQuad_lt (V R : Int) (v r : Nat) (hv : (v : Int) + 1 < V) (hr : (r : Int) < R)
    (i : Nat) (hi : i ∈ pushQuad V R v r []) : (i : Int) < V * R := by
  have key : ∀ a b : Int, 0 ≤ a → a < V → 0 ≤ b → b ≤ R →
      ((toGLuint (VRtoIndex V R a b) : Nat) : Int) < V * R := by
    intro a b ha0 ha hb0 hb
    have hb := VRtoIndex_bounds V R a b (by omega) ha0 ha hb0 hb
    unfold toGLuint
    rw [Int.toNat_of_nonneg hb.1]
    exact hb.2
  have hv0 : (0 : Int) ≤ v := Int.ofNat_nonneg v
  have hr0 : (0 : Int) ≤ r := Int.ofNat_nonneg r
  simp only [pushQuad, push_back, List.nil_append, List.cons_append, List.mem_cons,
    List.mem_singleton, List.not_mem_nil, or_false] at hi
  rcases hi with h | h | h | h | h | h <;> subst h <;> apply key <;> omega

/-- Every index appended by a call with `1 ≤ V` and `0 ≤ R` is below `V * R`. -/
theorem mem_indices_lt (V R : Int) (i : Nat)
    (hi : i ∈ (List.range R.toNat).flatMap (fun (r : Nat) =>
      (List.range (V - 1).toNat).flatMap (fun (v : Nat) => pushQuad V R v r []))) :
    (i : Int) < V * R := by
  simp only [List.mem_flatMap, List.mem_range] at hi
  obtain ⟨r, hr, v, hv, hmem⟩ := hi
  exact mem_pushQuad_lt V R v r (by omega) (by omega) i hmem

/-- The number of vertices appended: `R` blocks of `V` entries. -/
theorem length_grid {B : Type} (g : Nat → Nat → B) (V R : Int) (hV : 0 ≤ V) (hR : 0 ≤ R) :
    (((List.range R.toNat).flatMap (fun (r : Nat) =>
      (List.range V.toNat).map (fun (v : Nat) => g v r))).length : Int) = V * R := by
  rw [length_flatMap_range _ V.toNat (fun _ => by simp)]
  push_cast
  rw [Int.toNat_of_nonneg hV, Int.toNat_of_nonneg hR]
  ring

/-- The number of indices appended: `R` blocks of `V - 1` quads of six. -/
theorem length_quads (V R : Int) (hV : 1 ≤ V) (hR : 0 ≤ R) :
    (((List.range R.toNat).flatMap (fun (r : Nat) =>
      (List.range (V - 1).toNat).flatMap (fun (v : Nat) => pushQuad V R v r []))).length : Int)
      = 6 * R * (V - 1) := by
  rw [length_flatMap_range _ ((V - 1).toNat * 6) (fun r =>
    length_flatMap_range _ 6 (fun v => length_pushQuad_nil V R v r) _)]
  push_cast
  rw [Int.toNat_of_nonneg (by omega : 0 ≤ V - 1), Int.toNat_of_nonneg hR]
  ring

/-- The vertex of row `v` and column `r` sits at slot `r * V + v` of the
appended block. -/
theorem getElem?_grid {B : Type} (g : Nat → Nat → B) (V R : Nat) (v r : Nat) (hv : v < V)
    (hr : r < R) :
    ((List.range R).flatMap (fun (r : Nat) =>
      (List.range V).map (fun (v : Nat) => g v r)))[r * V + v]? = some (g v r) := by
  rw [getElem?_flatMap_range _ V (fun _ => by simp) R r v hr hv]
  simp [hv]

/-- Entry `j` of the quad of row `v` and column `r` sits at offset
`6 * (r * (V - 1) + v) + j` of the appended block. -/
theorem getElem?_quads (V R : Int) (n1 nR : Nat) (v r j : Nat) (hv : v < n1) (hr : r < nR)
    (hj : j < 6) :
    ((List.range nR).flatMap (fun (r : Nat) =>
      (List.range n1).flatMap (fun (v : Nat) => pushQuad V R v r [])))[6 * (r * n1 + v) + j]?
      = (pushQuad V R v r [])[j]? := by
  have e : 6 * (r * n1 + v) + j = r * (n1 * 6) + (v * 6 + j) := by ring
  have hlt : v * 6 + j < n1 * 6 := by omega
  rw [e, getElem?_flatMap_range _ (n1 * 6) (fun r =>
    length_flatMap_range _ 6 (fun v => length_pushQuad_nil V R v r) _) nR r _ hr hlt]
  exact getElem?_flatMap_range _ 6 (fun v => length_pushQuad_nil V R v r) n1 v j hv hj

/-- The six values of one quad, in the order of the six `push_back` calls. -/
theorem pushQuad_nil (V R v r : Int) :
    pushQuad V R v r [] =
      [toGLuint (VRtoIndex V R (v + 1) r), toGLuint (VRtoIndex V R v (r + 1)),
       toGLuint (VRtoIndex V R v r), toGLuint (VRtoIndex V R (v + 1) r),
       toGLuint (VRtoIndex V R (v + 1) (r + 1)), toGLuint (VRtoIndex V R v (r + 1))] := by
  simp [pushQuad, push_back]

/-- The stored index of row `v` and a column `r < R` is the slot `r * V + v`. -/
theorem toGLuint_VRtoIndex_of_lt (V R : Int) (v r : Nat) (hV : 0 ≤ V) (hr : (r : Int) < R) :
    toGLuint (VRtoIndex V R v r) = r * V.toNat + v := by
  rw [VRtoIndex_of_lt V R v r (Int.ofNat_nonneg r) hr]
  unfold toGLuint
  obtain ⟨n, rfl⟩ := Int.eq_ofNat_of_zero_le hV
  have e : ((r : Int) * (n : Int) + (v : Int)) = ((r * n + v : Nat) : Int) := by push_cast; ring
  rw [e]
  exact Int.toNat_ofNat _

/-- The stored index of row `v` and column `R` is the slot `v` of column `0`. -/
theorem toGLuint_VRtoIndex_wrap (V R : Int) (v : Nat) :
    toGLuint (VRtoIndex V R v R) = v := by
  rw [VRtoIndex_wrap]
  simp [toGLuint]

end Tessellator

/-! ## The tessellator: claims C1 to C6 -/

section TessellatorClaims

variable {K F : Type} [Add K] [Sub K] [Mul K] [Div K] [Neg K] [IntCast K] [OfScientific K]

/-- C1. For every curve and all resolutions `V ≥ 2`, `R ≥ 3`, the call on
empty vectors returns with exactly `V * R` positions, `V * R` normals and
`6 * R * (V - 1)` indices, that is three indices for each of
`2 * R * (V - 1)` triangles. -/
theorem GenerateParametricShape_cardinality (G : Glm K F) (f : K → Vec2 K) (V R : Int)
    (hV : 2 ≤ V) (hR : 3 ≤ R) :
    ∃ mesh, GenerateParametricShape G Mesh.empty f V R = Except.ok mesh ∧
      (mesh.positions.length : Int) = V * R ∧
      (mesh.normals.length : Int) = V * R ∧
      (mesh.indices.length : Int) = 6 * R * (V - 1) ∧
      (mesh.indices.length : Int) = 3 * (2 * R * (V - 1)) := by
  refine ⟨_, GenerateParametricShape_ok G Mesh.empty f V R (by omega) (by omega), ?_, ?_, ?_, ?_⟩
  · simpa [Mesh.empty] using length_grid (fun v r => positionAt G f V R v r) V R
      (by omega) (by omega)
  · simpa [Mesh.empty] using length_grid (fun v r => normalAt G f V R v r) V R
      (by omega) (by omega)
  · simpa [Mesh.empty] using length_quads V R (by omega) (by omega)
  · have h := length_quads V R (by omega) (by omega)
    simp only [Mesh.empty, List.nil_append]
    rw [h]
    ring

/-- C1 at the inputs the specification names: the circle at `V = R = 4` gives
16 positions, 16 normals and 72 indices, and the spiky circle at
`V = R = 1024` gives 6285312 indices (over exact real arithmetic). -/
theorem GenerateParametricShape_cardinality_witness :
    ((2 : Int) ≤ 4 ∧ (3 : Int) ≤ 4 ∧
      ∃ mesh, GenerateParametricShape
          (Glm.mk Real.cos Real.sin Real.sqrt Real.pi (2 * Real.pi) id id : Glm ℝ ℝ)
          Mesh.empty
          (ParametricCircle (Glm.mk Real.cos Real.sin Real.sqrt Real.pi (2 * Real.pi) id id))
          4 4 = Except.ok mesh ∧
        mesh.positions.length = 16 ∧ mesh.normals.length = 16 ∧ mesh.indices.length = 72) ∧
    ((2 : Int) ≤ 1024 ∧ (3 : Int) ≤ 1024 ∧
      ∃ mesh, GenerateParametricShape
          (Glm.mk Real.cos Real.sin Real.sqrt Real.pi (2 * Real.pi) id id : Glm ℝ ℝ)
          Mesh.empty
          (ParametricSpikyCircle
            (Glm.mk Real.cos Real.sin Real.sqrt Real.pi (2 * Real.pi) id id))
          1024 1024 = Except.ok mesh ∧
        mesh.indices.length = 6285312) := by
  refine ⟨⟨by decide, by decide, ?_⟩, ⟨by decide, by decide, ?_⟩⟩
  · obtain ⟨mesh, h, hp, hn, hi, _⟩ := GenerateParametricShape_cardinality
      (Glm.mk Real.cos Real.sin Real.sqrt Real.pi (2 * Real.pi) id id : Glm ℝ ℝ)
      (ParametricCircle (Glm.mk Real.cos Real.sin Real.sqrt Real.pi (2 * Real.pi) id id))
      4 4 (by decide) (by decide)
    exact ⟨mesh, h, by omega, by omega, by omega⟩
  · obtain ⟨mesh, h, _, _, hi, _⟩ := GenerateParametricShape_cardinality
      (Glm.mk Real.cos Real.sin Real.sqrt Real.pi (2 * Real.pi) id id : Glm ℝ ℝ)
      (ParametricSpikyCircle (Glm.mk Real.cos Real.sin Real.sqrt Real.pi (2 * Real.pi) id id))
      1024 1024 (by decide) (by decide)
    exact ⟨mesh, h, by omega⟩

/-- C2. For all resolutions `V ≥ 2`, `R ≥ 3`: `VRtoIndex v r`, which is
`(r mod R) * V + v`, is non-negative and below `V * R` for every row `v` in
`[0, V)` and every column `r` in `[0, R]`; and every index the call emits is
below `V * R`, so it addresses one of the `V * R` positions and normals. -/
theorem VRtoIndex_in_range (G : Glm K F) (f : K → Vec2 K) (V R : Int)
    (hV : 2 ≤ V) (hR : 3 ≤ R) :
    (∀ v r : Int, 0 ≤ v → v < V → 0 ≤ r → r ≤ R →
      VRtoIndex V R v r = (r % R) * V + v ∧
      0 ≤ VRtoIndex V R v r ∧ VRtoIndex V R v r < V * R) ∧
    ∃ mesh, GenerateParametricShape G Mesh.empty f V R = Except.ok mesh ∧
      ∀ i ∈ mesh.indices,
        (i : Int) < V * R ∧ i < mesh.positions.length ∧ i < mesh.normals.length := by
  refine ⟨fun v r hv0 hv hr0 hr => ⟨?_, VRtoIndex_bounds V R v r (by omega) hv0 hv hr0 hr⟩,
    _, GenerateParametricShape_ok G Mesh.empty f V R (by omega) (by omega), ?_⟩
  · unfold VRtoIndex
    rw [Int.tmod_eq_emod hr0 (by omega)]
  · intro i hi
    simp only [Mesh.empty, List.nil_append] at hi ⊢
    have hlt := mem_indices_lt V R i hi
    have hp := length_grid (fun v r => positionAt G f V R v r) V R (by omega) (by omega)
    have hn := length_grid (fun v r => normalAt G f V R v r) V R (by omega) (by omega)
    refine ⟨hlt, ?_, ?_⟩
    · have : (i : Int) < _ := hp.symm ▸ hlt
      exact_mod_cast this
    · have : (i : Int) < _ := hn.symm ▸ hlt
      exact_mod_cast this

/-- C2 at the half circle with `V = R = 16`, the second mesh of `main`. -/
theorem VRtoIndex_in_range_witness :
    (2 : Int) ≤ 16 ∧ (3 : Int) ≤ 16 ∧
    (∀ v r : Int, 0 ≤ v → v < 16 → 0 ≤ r → r ≤ 16 →
      VRtoIndex 16 16 v r = (r % 16) * 16 + v ∧
      0 ≤ VRtoIndex 16 16 v r ∧ VRtoIndex 16 16 v r < 16 * 16) ∧
    ∃ mesh, GenerateParametricShape
        (Glm.mk Real.cos Real.sin Real.sqrt Real.pi (2 * Real.pi) id id : Glm ℝ ℝ)
        Mesh.empty
        (ParametricHalfCircle
          (Glm.mk Real.cos Real.sin Real.sqrt Real.pi (2 * Real.pi) id id))
        16 16 = Except.ok mesh ∧
      ∀ i ∈ mesh.indices,
        (i : Int) < 16 * 16 ∧ i < mesh.positions.length ∧ i < mesh.normals.length :=
  ⟨by decide, by decide, VRtoIndex_in_range
    (Glm.mk Real.cos Real.sin Real.sqrt Real.pi (2 * Real.pi) id id : Glm ℝ ℝ)
    (ParametricHalfCircle (Glm.mk Real.cos Real.sin Real.sqrt Real.pi (2 * Real.pi) id id))
    16 16 (by decide) (by decide)⟩

/-- C3. For all `V ≥ 2`, `R ≥ 3` the index list is, for `r = 0..R-1` (outer)
and `v = 0..V-2` (inner), the six values `idx(v+1,r)`, `idx(v,r+1)`,
`idx(v,r)`, `idx(v+1,r)`, `idx(v+1,r+1)`, `idx(v,r+1)`, where `idx(v,r)` is
`(r mod R) * V + v`; they are stored at the offsets `6 * (r * (V-1) + v) + j`,
`j < 6`.  The quads of the last column `r = R - 1` join the slots
`(R-1) * V + v` and `(R-1) * V + v + 1` to the slots `v` and `v + 1` of column
`0`, and no index reaches `V * R`, where a column `R` would start. -/
theorem indices_layout (G : Glm K F) (f : K → Vec2 K) (V R : Int)
    (hV : 2 ≤ V) (hR : 3 ≤ R) :
    ∃ mesh, GenerateParametricShape G Mesh.empty f V R = Except.ok mesh ∧
      mesh.indices = (List.range R.toNat).flatMap (fun (r : Nat) =>
        (List.range (V - 1).toNat).flatMap (fun (v : Nat) =>
          [toGLuint (VRtoIndex V R (v + 1) r), toGLuint (VRtoIndex V R v (r + 1)),
           toGLuint (VRtoIndex V R v r), toGLuint (VRtoIndex V R (v + 1) r),
           toGLuint (VRtoIndex V R (v + 1) (r + 1)),
           toGLuint (VRtoIndex V R v (r + 1))])) ∧
      (∀ r v j : Nat, (r : Int) < R → (v : Int) < V - 1 → j < 6 →
        mesh.indices[6 * (r * (V - 1).toNat + v) + j]? =
          [toGLuint (VRtoIndex V R (v + 1) r), toGLuint (VRtoIndex V R v (r + 1)),
           toGLuint (VRtoIndex V R v r), toGLuint (VRtoIndex V R (v + 1) r),
           toGLuint (VRtoIndex V R (v + 1) (r + 1)),
           toGLuint (VRtoIndex V R v (r + 1))][j]?) ∧
      (∀ v r : Int, 0 ≤ v → 0 ≤ r →
        ((toGLuint (VRtoIndex V R v r) : Nat) : Int) = (r % R) * V + v) ∧
      (∀ v j : Nat, (v : Int) < V - 1 → j < 6 →
        mesh.indices[6 * ((R.toNat - 1) * (V - 1).toNat + v) + j]? =
          [(R.toNat - 1) * V.toNat + (v + 1), v, (R.toNat - 1) * V.toNat + v,
           (R.toNat - 1) * V.toNat + (v + 1), v + 1, v][j]?) ∧
      (∀ i ∈ mesh.indices, (i : Int) < V * R) := by
  refine ⟨_, GenerateParametricShape_ok G Mesh.empty f V R (by omega) (by omega), ?_, ?_,
    ?_, ?_, ?_⟩
  · simp only [Mesh.empty, List.nil_append, pushQuad_nil]
  · intro r v j hr hv hj
    simp only [Mesh.empty, List.nil_append]
    rw [getElem?_quads V R (V - 1).toNat R.toNat v r j (by omega) (by omega) hj, pushQuad_nil]
  · intro v r hv0 hr0
    have hm : 0 ≤ r % R := Int.emod_nonneg r (by omega)
    have hnn : 0 ≤ (r % R) * V + v := by
      have := Int.mul_nonneg hm (by omega : (0 : Int) ≤ V)
      linarith
    unfold toGLuint VRtoIndex
    rw [Int.tmod_eq_emod hr0 (by omega), Int.toNat_of_nonneg hnn]
  · intro v j hv hj
    simp only [Mesh.empty, List.nil_append]
    rw [getElem?_quads V R (V - 1).toNat R.toNat v (R.toNat - 1) j (by omega) (by omega) hj,
      pushQuad_nil]
    have hc : ((R.toNat - 1 : Nat) : Int) = R - 1 := by omega
    have hlast : (((R.toNat - 1 : Nat) : Int)) < R := by omega
    have hwrap : (((R.toNat - 1 : Nat) : Int)) + 1 = R := by omega
    have e1 := toGLuint_VRtoIndex_of_lt V R v (R.toNat - 1) (by omega) hlast
    have e2 := toGLuint_VRtoIndex_of_lt V R (v + 1) (R.toNat - 1) (by omega) hlast
    have e3 := toGLuint_VRtoIndex_wrap V R v
    have e4 := toGLuint_VRtoIndex_wrap V R (v + 1)
    rw [hwrap]
    push_cast at e2 e4
    rw [e1, e2, e3, e4]
  · intro i hi
    simp only [Mesh.empty, List.nil_append] at hi
    exact mem_indices_lt V R i hi

/-- C3 at the spikes mesh of `main`, `V = 12` and `R = 6`. -/
theorem indices_layout_witness :
    (2 : Int) ≤ 12 ∧ (3 : Int) ≤ 6 ∧
    ∃ mesh, GenerateParametricShape
        (Glm.mk Real.cos Real.sin Real.sqrt Real.pi (2 * Real.pi) id id : Glm ℝ ℝ)
        Mesh.empty
        (ParametricSpikes (Glm.mk Real.cos Real.sin Real.sqrt Real.pi (2 * Real.pi) id id))
        12 6 = Except.ok mesh ∧
      (∀ j : Nat, j < 6 → mesh.indices[6 * (5 * 11 + 3) + j]? = [64, 3, 63, 64, 4, 3][j]?) := by
  refine ⟨by decide, by decide, ?_⟩
  obtain ⟨mesh, h, _, _, _, hseam, _⟩ := indices_layout
    (Glm.mk Real.cos Real.sin Real.sqrt Real.pi (2 * Real.pi) id id : Glm ℝ ℝ)
    (ParametricSpikes (Glm.mk Real.cos Real.sin Real.sqrt Real.pi (2 * Real.pi) id id))
    12 6 (by decide) (by decide)
  refine ⟨mesh, h, fun j hj => ?_⟩
  have := hseam 3 j (by decide) hj
  simpa using this

/-- C4. For every curve, all `V ≥ 2`, `R ≥ 3` and every grid coordinate `v`
in `[0, V)`, `r` in `[0, R)`: the triangle index `idx(v, r)` is the slot
`r * V + v`, and the position stored there is the surface point
`S(v/(V-1), r/R)`, which is `rotateY((f(v/(V-1)).x, f(v/(V-1)).y, 0),
(r/R) * two_pi)`, converted from `double` to `float`. -/
theorem positions_layout (G : Glm K F) (f : K → Vec2 K) (V R : Int)
    (hV : 2 ≤ V) (hR : 3 ≤ R) :
    ∃ mesh, GenerateParametricShape G Mesh.empty f V R = Except.ok mesh ∧
      ∀ v r : Nat, (v : Int) < V → (r : Int) < R →
        toGLuint (VRtoIndex V R v r) = r * V.toNat + v ∧
        mesh.positions[r * V.toNat + v]? =
          some (Vec3.map G.toFloat
            (parametric_surface G f
              (((v : Int) : K) / ((V - 1 : Int) : K)) (((r : Int) : K) / ((R : Int) : K)))) ∧
        parametric_surface G f
            (((v : Int) : K) / ((V - 1 : Int) : K)) (((r : Int) : K) / ((R : Int) : K)) =
          rotateY G
            ⟨(f (((v : Int) : K) / ((V - 1 : Int) : K))).x,
             (f (((v : Int) : K) / ((V - 1 : Int) : K))).y, ((0 : Int) : K)⟩
            ((((r : Int) : K) / ((R : Int) : K)) * G.two_pi) := by
  refine ⟨_, GenerateParametricShape_ok G Mesh.empty f V R (by omega) (by omega), ?_⟩
  intro v r hv hr
  refine ⟨toGLuint_VRtoIndex_of_lt V R v r (by omega) hr, ?_, rfl⟩
  simp only [Mesh.empty, List.nil_append]
  rw [getElem?_grid (fun v r => positionAt G f V R v r) V.toNat R.toNat v r (by omega)
    (by omega)]
  rfl

/-- C4 at the circle with `V = R = 4`, row 1 of column 2: slot 9. -/
theorem positions_layout_witness :
    (2 : Int) ≤ 4 ∧ (3 : Int) ≤ 4 ∧
    ∃ mesh, GenerateParametricShape
        (Glm.mk Real.cos Real.sin Real.sqrt Real.pi (2 * Real.pi) id id : Glm ℝ ℝ)
        Mesh.empty
        (ParametricCircle (Glm.mk Real.cos Real.sin Real.sqrt Real.pi (2 * Real.pi) id id))
        4 4 = Except.ok mesh ∧
      toGLuint (VRtoIndex 4 4 1 2) = 9 ∧
      mesh.positions[9]? = some (parametric_surface
        (Glm.mk Real.cos Real.sin Real.sqrt Real.pi (2 * Real.pi) id id : Glm ℝ ℝ)
        (ParametricCircle (Glm.mk Real.cos Real.sin Real.sqrt Real.pi (2 * Real.pi) id id))
        (((1 : Int) : ℝ) / ((3 : Int) : ℝ)) (((2 : Int) : ℝ) / ((4 : Int) : ℝ))) := by
  refine ⟨by decide, by decide, ?_⟩
  obtain ⟨mesh, h, hpos⟩ := positions_layout
    (Glm.mk Real.cos Real.sin Real.sqrt Real.pi (2 * Real.pi) id id : Glm ℝ ℝ)
    (ParametricCircle (Glm.mk Real.cos Real.sin Real.sqrt Real.pi (2 * Real.pi) id id))
    4 4 (by decide) (by decide)
  obtain ⟨h1, h2, _⟩ := hpos 1 2 (by decide) (by decide)
  exact ⟨mesh, h, by decide, by simpa [Vec3.map] using h2⟩

/-- C5, the claim at a concrete input: the circle with `V = 2` and `R = 2`
has `R < 3`, and the call is not rejected: it returns a mesh of four
positions, four normals and the twelve indices of four triangles. -/
theorem GenerateParametricShape_accepts_two_columns :
    ((2 : Int) < 2 ∨ (2 : Int) < 3) ∧
    ∃ mesh, GenerateParametricShape
        (Glm.mk Real.cos Real.sin Real.sqrt Real.pi (2 * Real.pi) id id : Glm ℝ ℝ)
        Mesh.empty
        (ParametricCircle (Glm.mk Real.cos Real.sin Real.sqrt Real.pi (2 * Real.pi) id id))
        2 2 = Except.ok mesh ∧
      mesh.positions.length = 4 ∧ mesh.normals.length = 4 ∧
      mesh.indices = [1, 2, 0, 1, 3, 2, 3, 0, 2, 3, 1, 0] := by
  refine ⟨Or.inr (by decide), _,
    GenerateParametricShape_ok _ Mesh.empty _ 2 2 (by decide) (by decide), ?_, ?_, ?_⟩
  · simp [Mesh.empty, List.range_succ]
  · simp [Mesh.empty, List.range_succ]
  · simp only [Mesh.empty, List.nil_append]
    decide

/-- C5 as the code has it: no resolution is checked.  For every curve and
all `V ≥ 1`, `R ≥ 0`, among them `V = 1` and `R = 0, 1, 2`, the call on empty
vectors returns with `V * R` positions, `V * R` normals and `6 * R * (V - 1)`
indices. -/
theorem GenerateParametricShape_unchecked (G : Glm K F) (f : K → Vec2 K) (V R : Int)
    (hV : 1 ≤ V) (hR : 0 ≤ R) :
    ∃ mesh, GenerateParametricShape G Mesh.empty f V R = Except.ok mesh ∧
      (mesh.positions.length : Int) = V * R ∧
      (mesh.normals.length : Int) = V * R ∧
      (mesh.indices.length : Int) = 6 * R * (V - 1) := by
  refine ⟨_, GenerateParametricShape_ok G Mesh.empty f V R hV hR, ?_, ?_, ?_⟩
  · simpa [Mesh.empty] using length_grid (fun v r => positionAt G f V R v r) V R
      (by omega) hR
  · simpa [Mesh.empty] using length_grid (fun v r => normalAt G f V R v r) V R
      (by omega) hR
  · simpa [Mesh.empty] using length_quads V R hV hR

/-- C5 as the code has it, at `V = 1` and `R = 3`: three positions, three
normals and no index. -/
theorem GenerateParametricShape_unchecked_witness :
    (1 : Int) ≤ 1 ∧ (0 : Int) ≤ 3 ∧
    ∃ mesh, GenerateParametricShape
        (Glm.mk Real.cos Real.sin Real.sqrt Real.pi (2 * Real.pi) id id : Glm ℝ ℝ)
        Mesh.empty
        (ParametricHalfCircle
          (Glm.mk Real.cos Real.sin Real.sqrt Real.pi (2 * Real.pi) id id))
        1 3 = Except.ok mesh ∧
      mesh.positions.length = 3 ∧ mesh.normals.length = 3 ∧ mesh.indices.length = 0 := by
  refine ⟨by decide, by decide, ?_⟩
  obtain ⟨mesh, h, hp, hn, hi⟩ := GenerateParametricShape_unchecked
    (Glm.mk Real.cos Real.sin Real.sqrt Real.pi (2 * Real.pi) id id : Glm ℝ ℝ)
    (ParametricHalfCircle (Glm.mk Real.cos Real.sin Real.sqrt Real.pi (2 * Real.pi) id id))
    1 3 (by decide) (by decide)
  exact ⟨mesh, h, by omega, by omega, by omega⟩

/-- C6, the claim at a concrete input: two calls with the same curve, `V = 2`
and `R = 3`, one given empty vectors and one given an index vector that holds
`7`, both return, and leave different contents in the index vector: 18
entries in one and 19 in the other. -/
theorem GenerateParametricShape_keeps_given_contents :
    ∃ m1 m2, GenerateParametricShape
        (Glm.mk Real.cos Real.sin Real.sqrt Real.pi (2 * Real.pi) id id : Glm ℝ ℝ)
        Mesh.empty
        (ParametricCircle (Glm.mk Real.cos Real.sin Real.sqrt Real.pi (2 * Real.pi) id id))
        2 3 = Except.ok m1 ∧
      GenerateParametricShape
        (Glm.mk Real.cos Real.sin Real.sqrt Real.pi (2 * Real.pi) id id : Glm ℝ ℝ)
        (Mesh.mk [] [] [7])
        (ParametricCircle (Glm.mk Real.cos Real.sin Real.sqrt Real.pi (2 * Real.pi) id id))
        2 3 = Except.ok m2 ∧
      m1.indices.length = 18 ∧ m2.indices.length = 19 ∧ m2.indices.head? = some 7 ∧
      m1 ≠ m2 := by
  refine ⟨_, _, GenerateParametricShape_ok _ Mesh.empty _ 2 3 (by decide) (by decide),
    GenerateParametricShape_ok _ (Mesh.mk [] [] [7]) _ 2 3 (by decide) (by decide),
    ?_, ?_, ?_, ?_⟩
  · simp only [Mesh.empty, List.nil_append]
    decide
  · simp only [List.length_append]
    decide
  · simp
  · intro h
    have h2 := congrArg (fun m => m.indices.length) h
    simp only [Mesh.empty, List.nil_append, List.length_append] at h2
    revert h2
    decide

/-- C6 as the code has it: the call appends.  The vectors after a call are
the vectors before it followed by what the same call leaves in empty vectors,
and whether the call throws does not depend on the vectors given; so what is
appended depends on `(f, V, R)` only, and two calls with the same `f`, `V`,
`R` leave identical contents when the vectors given held identical contents. -/
theorem GenerateParametricShape_appends (G : Glm K F) (m : Mesh F) (f : K → Vec2 K)
    (V R : Int) :
    GenerateParametricShape G m f V R =
      (GenerateParametricShape G Mesh.empty f V R).map (fun out =>
        { positions := m.positions ++ out.positions
          normals := m.normals ++ out.normals
          indices := m.indices ++ out.indices }) := by
  rw [GenerateParametricShape_eq G m, GenerateParametricShape_eq G Mesh.empty]
  by_cases h1 : V * R < 0
  · simp only [h1, if_true]
    rfl
  · by_cases h2 : R * (V - 1) * 6 < 0
    · simp only [h1, h2, if_true, if_false]
      rfl
    · simp only [h1, h2, if_false]
      simp [Except.map, Mesh.empty]

end TessellatorClaims

/-! ## The scene controller: claims C7 to C10 -/

section SceneClaims

variable {K F : Type}

/-- The scene after `key_callback`, as one case distinction: the seven `if`
statements test distinct keys, so at most one of them assigns. -/
theorem scene_after_key_callback (s : State K F) (key scancode action mods : Int) :
    (key_callback s key scancode action mods).globals.scene =
      if action = GLFW_PRESS then
        if key = GLFW_KEY_Q then 1 else if key = GLFW_KEY_W then 2
        else if key = GLFW_KEY_E then 3 else if key = GLFW_KEY_R then 4
        else if key = GLFW_KEY_T then 5 else if key = GLFW_KEY_Y then 6
        else s.globals.scene
      else s.globals.scene := by
  simp only [key_callback, State.setScene, GLFW_PRESS, GLFW_KEY_ESCAPE, GLFW_KEY_Q,
    GLFW_KEY_W, GLFW_KEY_E, GLFW_KEY_R, GLFW_KEY_T, GLFW_KEY_Y]
  by_cases ha : action = 1
  · by_cases h1 : key = 81
    · subst h1; simp [ha]
    by_cases h2 : key = 87
    · subst h2; simp [ha]
    by_cases h3 : key = 69
    · subst h3; simp [ha]
    by_cases h4 : key = 82
    · subst h4; simp [ha]
    by_cases h5 : key = 84
    · subst h5; simp [ha]
    by_cases h6 : key = 89
    · subst h6; simp [ha]
    by_cases h7 : key = 256
    · subst h7; simp [ha]
    simp [ha, h1, h2, h3, h4, h5, h6, h7]
  · simp [ha]

/-- C7. For every state and every key event, `key_callback` leaves the scene
equal to 1, 2, 3, 4, 5, 6 when the event is a press of Q, W, E, R, T, Y,
whatever the scene was, and leaves the scene as it was for every other event:
any action that is not a press, and a press of any other key, Escape included.
From the initial state, whose scene is 0, the presses Q, W, E, R, T, Y, T
give the scenes 1, 2, 3, 4, 5, 6, 5. -/
theorem key_callback_scene [IntCast K] [IntCast F] (s : State K F)
    (key scancode action mods : Int) :
    (action = GLFW_PRESS → key = GLFW_KEY_Q →
      (key_callback s key scancode action mods).globals.scene = 1) ∧
    (action = GLFW_PRESS → key = GLFW_KEY_W →
      (key_callback s key scancode action mods).globals.scene = 2) ∧
    (action = GLFW_PRESS → key = GLFW_KEY_E →
      (key_callback s key scancode action mods).globals.scene = 3) ∧
    (action = GLFW_PRESS → key = GLFW_KEY_R →
      (key_callback s key scancode action mods).globals.scene = 4) ∧
    (action = GLFW_PRESS → key = GLFW_KEY_T →
      (key_callback s key scancode action mods).globals.scene = 5) ∧
    (action = GLFW_PRESS → key = GLFW_KEY_Y →
      (key_callback s key scancode action mods).globals.scene = 6) ∧
    (action ≠ GLFW_PRESS →
      (key_callback s key scancode action mods).globals.scene = s.globals.scene) ∧
    (key ≠ GLFW_KEY_Q → key ≠ GLFW_KEY_W → key ≠ GLFW_KEY_E → key ≠ GLFW_KEY_R →
      key ≠ GLFW_KEY_T → key ≠ GLFW_KEY_Y →
      (key_callback s key scancode action mods).globals.scene = s.globals.scene) ∧
    (key_callback s GLFW_KEY_ESCAPE scancode GLFW_PRESS mods).globals.scene
      = s.globals.scene ∧
    (State.initial : State K F).globals.scene = 0 ∧
    ((List.scanl (fun st k => key_callback st k scancode GLFW_PRESS mods)
        (State.initial : State K F)
        [GLFW_KEY_Q, GLFW_KEY_W, GLFW_KEY_E, GLFW_KEY_R, GLFW_KEY_T, GLFW_KEY_Y,
         GLFW_KEY_T]).map (fun st => st.globals.scene)).tail
      = [1, 2, 3, 4, 5, 6, 5] := by
  refine ⟨?_, ?_, ?_, ?_, ?_, ?_, ?_, ?_, ?_, rfl, ?_⟩
  · intro ha hk
    rw [scene_after_key_callback, if_pos ha, hk]; rfl
  · intro ha hk
    rw [scene_after_key_callback, if_pos ha, hk]; rfl
  · intro ha hk
    rw [scene_after_key_callback, if_pos ha, hk]; rfl
  · intro ha hk
    rw [scene_after_key_callback, if_pos ha, hk]; rfl
  · intro ha hk
    rw [scene_after_key_callback, if_pos ha, hk]; rfl
  · intro ha hk
    rw [scene_after_key_callback, if_pos ha, hk]; rfl
  · intro ha
    rw [scene_after_key_callback, if_neg ha]
  · intro h1 h2 h3 h4 h5 h6
    rw [scene_after_key_callback]
    simp [h1, h2, h3, h4, h5, h6]
  · rw [scene_after_key_callback]
    simp [GLFW_KEY_ESCAPE, GLFW_KEY_Q, GLFW_KEY_W, GLFW_KEY_E, GLFW_KEY_R, GLFW_KEY_T,
      GLFW_KEY_Y]
  · simp only [List.scanl, List.map, List.tail, scene_after_key_callback]
    simp [GLFW_KEY_Q, GLFW_KEY_W, GLFW_KEY_E, GLFW_KEY_R, GLFW_KEY_T, GLFW_KEY_Y]

/-- The scene stays within 0..6 under every event. -/
theorem step_scene_range [Add K] [Sub K] [Mul K] [Div K] [IntCast K] [OfScientific K]
    [IntCast F] (G : Glm K F) (s : State K F) (e : Event K)
    (h : 0 ≤ s.globals.scene ∧ s.globals.scene ≤ 6) :
    0 ≤ (step G s e).globals.scene ∧ (step G s e).globals.scene ≤ 6 := by
  cases e with
  | key key scancode action mods =>
    simp only [step, scene_after_key_callback]
    split_ifs <;> first | exact h | decide
  | cursor x y => exact h
  | resize width height => exact h
  | frame =>
    simp only [step, frame]
    split_ifs <;> exact h

/-- What holds of the scene before a sequence of events and is kept by every
event holds after the sequence. -/
theorem run_scene_range [Add K] [Sub K] [Mul K] [Div K] [IntCast K] [OfScientific K]
    [IntCast F] (G : Glm K F) (events : List (Event K)) (s : State K F)
    (h : 0 ≤ s.globals.scene ∧ s.globals.scene ≤ 6) :
    0 ≤ (run G s events).globals.scene ∧ (run G s events).globals.scene ≤ 6 := by
  induction events generalizing s with
  | nil => exact h
  | cons e es ih => exact ih (step G s e) (step_scene_range G s e h)

/-- C8. In every state reached from the initial state by a finite sequence
of key, cursor, resize events and frames, the scene is one of 0, 1, 2, 3, 4,
5, 6. -/
theorem scene_in_range [Add K] [Sub K] [Mul K] [Div K] [IntCast K] [OfScientific K]
    [IntCast F] (G : Glm K F) (events : List (Event K)) :
    (run G (State.initial : State K F) events).globals.scene ∈
      ([0, 1, 2, 3, 4, 5, 6] : List Int) := by
  have h := run_scene_range G events (State.initial : State K F)
    ⟨le_refl (0 : Int), (by decide : (0 : Int) ≤ 6)⟩
  generalize (run G (State.initial : State K F) events).globals.scene = n at h
  obtain ⟨h0, h6⟩ := h
  simp only [List.mem_cons, List.mem_singleton, List.not_mem_nil, or_false]
  omega

/-- The two components of the normalised mouse position over a field. -/
theorem normalised_mouse_position_field {K : Type} [LinearOrderedField K] (g : Globals K) :
    normalised_mouse_position g =
      ⟨2 * (g.mouse_position.x / (g.screen_dimensions.x : K)) - 1,
       2 * (1 - g.mouse_position.y / (g.screen_dimensions.y : K)) - 1⟩ := by
  simp only [normalised_mouse_position, Vec2.mk.injEq]
  constructor <;> norm_num <;> ring

/-- C9. For every cursor pixel `(mx, my)` and every window size `(W, H)`
with `W ≠ 0` and `H ≠ 0`, over exact arithmetic the normalised mouse position
of a frame is `nx = 2 * (mx / W) - 1`, `ny = 2 * (1 - my / H) - 1`; the pixel
`(0, H)` maps to `(-1, -1)`, the pixel `(W, 0)` to `(1, 1)` and the pixel
`(W / 2, H / 2)` to `(0, 0)`. -/
theorem normalised_mouse_position_formula {K : Type} [LinearOrderedField K] (mx my : K)
    (W H scene : Int) (hW : W ≠ 0) (hH : H ≠ 0) :
    normalised_mouse_position (Globals.mk ⟨mx, my⟩ ⟨W, H⟩ scene)
      = ⟨2 * (mx / (W : K)) - 1, 2 * (1 - my / (H : K)) - 1⟩ ∧
    normalised_mouse_position (Globals.mk ⟨0, (H : K)⟩ ⟨W, H⟩ scene) = ⟨-1, -1⟩ ∧
    normalised_mouse_position (Globals.mk ⟨(W : K), 0⟩ ⟨W, H⟩ scene) = ⟨1, 1⟩ ∧
    normalised_mouse_position (Globals.mk ⟨(W : K) / 2, (H : K) / 2⟩ ⟨W, H⟩ scene)
      = ⟨0, 0⟩ := by
  have hW2 : (W : K) ≠ 0 := Int.cast_ne_zero.mpr hW
  have hH2 : (H : K) ≠ 0 := Int.cast_ne_zero.mpr hH
  refine ⟨normalised_mouse_position_field _, ?_, ?_, ?_⟩
  · rw [normalised_mouse_position_field]
    simp only [Vec2.mk.injEq]
    constructor
    · norm_num
    · rw [div_self hH2]; norm_num
  · rw [normalised_mouse_position_field]
    simp only [Vec2.mk.injEq]
    constructor
    · rw [div_self hW2]; norm_num
    · norm_num
  · rw [normalised_mouse_position_field]
    simp only [Vec2.mk.injEq]
    constructor
    · field_simp
    · field_simp; ring

/-- C9 over the rationals in the initial window of 600 by 600 pixels, with
the cursor at pixel `(150, 450)`. -/
theorem normalised_mouse_position_formula_witness :
    (600 : Int) ≠ 0 ∧
    normalised_mouse_position (Globals.mk (⟨150, 450⟩ : Vec2 ℚ) ⟨600, 600⟩ 0)
      = ⟨2 * (150 / ((600 : Int) : ℚ)) - 1, 2 * (1 - 450 / ((600 : Int) : ℚ)) - 1⟩ ∧
    normalised_mouse_position (Globals.mk (⟨0, ((600 : Int) : ℚ)⟩ : Vec2 ℚ) ⟨600, 600⟩ 0)
      = ⟨-1, -1⟩ ∧
    normalised_mouse_position (Globals.mk (⟨((600 : Int) : ℚ), 0⟩ : Vec2 ℚ) ⟨600, 600⟩ 0)
      = ⟨1, 1⟩ ∧
    normalised_mouse_position
        (Globals.mk (⟨((600 : Int) : ℚ) / 2, ((600 : Int) : ℚ) / 2⟩ : Vec2 ℚ) ⟨600, 600⟩ 0)
      = ⟨0, 0⟩ :=
  ⟨by decide, normalised_mouse_position_formula (150 : ℚ) 450 600 600 0 (by decide)
    (by decide)⟩

/-- C10. For every window size `W > 0`, `H > 0` and every cursor position
with `0 ≤ mx ≤ W` and `0 ≤ my ≤ H`, over exact arithmetic the normalised
coordinates lie in `[-1, 1]`; and the y axis is flipped: of two pixel rows
the smaller one, higher on the screen, gets the larger `ny`. -/
theorem normalised_mouse_position_bounds {K : Type} [LinearOrderedField K] (mx my : K)
    (W H scene : Int) (hW : 0 < W) (hH : 0 < H) (hx0 : 0 ≤ mx) (hx : mx ≤ (W : K))
    (hy0 : 0 ≤ my) (hy : my ≤ (H : K)) :
    -1 ≤ (normalised_mouse_position (Globals.mk ⟨mx, my⟩ ⟨W, H⟩ scene)).x ∧
    (normalised_mouse_position (Globals.mk ⟨mx, my⟩ ⟨W, H⟩ scene)).x ≤ 1 ∧
    -1 ≤ (normalised_mouse_position (Globals.mk ⟨mx, my⟩ ⟨W, H⟩ scene)).y ∧
    (normalised_mouse_position (Globals.mk ⟨mx, my⟩ ⟨W, H⟩ scene)).y ≤ 1 ∧
    ∀ my1 my2 : K, my1 < my2 →
      (normalised_mouse_position (Globals.mk ⟨mx, my2⟩ ⟨W, H⟩ scene)).y <
        (normalised_mouse_position (Globals.mk ⟨mx, my1⟩ ⟨W, H⟩ scene)).y := by
  have hW2 : (0 : K) < (W : K) := Int.cast_pos.mpr hW
  have hH2 : (0 : K) < (H : K) := Int.cast_pos.mpr hH
  have hxa : 0 ≤ mx / (W : K) := div_nonneg hx0 hW2.le
  have hxb : mx / (W : K) ≤ 1 := (div_le_one hW2).mpr hx
  have hya : 0 ≤ my / (H : K) := div_nonneg hy0 hH2.le
  have hyb : my / (H : K) ≤ 1 := (div_le_one hH2).mpr hy
  simp only [normalised_mouse_position_field]
  refine ⟨by linarith, by linarith, by linarith, by linarith, ?_⟩
  intro my1 my2 h12
  have hd : my1 / (H : K) < my2 / (H : K) := div_lt_div_of_pos_right h12 hH2
  linarith

/-- C10 over the rationals in the initial window of 600 by 600 pixels, with
the cursor at pixel `(150, 450)`. -/
theorem normalised_mouse_position_bounds_witness :
    (0 : Int) < 600 ∧ (0 : ℚ) ≤ 150 ∧ (150 : ℚ) ≤ ((600 : Int) : ℚ) ∧
    (0 : ℚ) ≤ 450 ∧ (450 : ℚ) ≤ ((600 : Int) : ℚ) ∧
    -1 ≤ (normalised_mouse_position (Globals.mk (⟨150, 450⟩ : Vec2 ℚ) ⟨600, 600⟩ 0)).x ∧
    (normalised_mouse_position (Globals.mk (⟨150, 450⟩ : Vec2 ℚ) ⟨600, 600⟩ 0)).x ≤ 1 ∧
    -1 ≤ (normalised_mouse_position (Globals.mk (⟨150, 450⟩ : Vec2 ℚ) ⟨600, 600⟩ 0)).y ∧
    (normalised_mouse_position (Globals.mk (⟨150, 450⟩ : Vec2 ℚ) ⟨600, 600⟩ 0)).y ≤ 1 ∧
    ∀ my1 my2 : ℚ, my1 < my2 →
      (normalised_mouse_position (Globals.mk (⟨150, my2⟩ : Vec2 ℚ) ⟨600, 600⟩ 0)).y <
        (normalised_mouse_position (Globals.mk (⟨150, my1⟩ : Vec2 ℚ) ⟨600, 600⟩ 0)).y :=
  ⟨by decide, by norm_num, by norm_num, by norm_num, by norm_num,
    normalised_mouse_position_bounds (150 : ℚ) 450 600 600 0 (by decide) (by decide)
      (by norm_num) (by norm_num) (by norm_num) (by norm_num)⟩

end SceneClaims

/-! ## The scene controller: claims C11 to C14 -/

section ChaserClaims

/-- C11, the claim at a concrete input: in the window of 600 by 600 pixels
the cursor pixel `(1200, -300)`, right of and above the window, is normalised
to `(3, 2)`, outside `[-1, 1] × [-1, 1]`. -/
theorem cursor_outside_window_not_clamped :
    (0 : Int) < 600 ∧
    normalised_mouse_position (Globals.mk (⟨1200, -300⟩ : Vec2 ℚ) ⟨600, 600⟩ 0) = ⟨3, 2⟩ ∧
    ¬ ((normalised_mouse_position (Globals.mk (⟨1200, -300⟩ : Vec2 ℚ) ⟨600, 600⟩ 0)).x ≤ 1) ∧
    ¬ ((normalised_mouse_position (Globals.mk (⟨1200, -300⟩ : Vec2 ℚ) ⟨600, 600⟩ 0)).y ≤ 1) := by
  refine ⟨by decide, ?_, ?_, ?_⟩
  · rw [normalised_mouse_position_field]
    simp only [Vec2.mk.injEq]
    constructor <;> norm_num
  · rw [normalised_mouse_position_field]
    norm_num
  · rw [normalised_mouse_position_field]
    norm_num

/-- C11 as the code has it: the normalisation is affine and clamps nothing.
For every window size `W > 0`, `H > 0` and every cursor pixel, over exact
arithmetic `nx` lies in `[-1, 1]` exactly when `0 ≤ mx ≤ W`, and `ny` lies in
`[-1, 1]` exactly when `0 ≤ my ≤ H`. -/
theorem normalised_mouse_in_range_iff {K : Type} [LinearOrderedField K] (mx my : K)
    (W H scene : Int) (hW : 0 < W) (hH : 0 < H) :
    ((-1 ≤ (normalised_mouse_position (Globals.mk ⟨mx, my⟩ ⟨W, H⟩ scene)).x ∧
        (normalised_mouse_position (Globals.mk ⟨mx, my⟩ ⟨W, H⟩ scene)).x ≤ 1) ↔
      (0 ≤ mx ∧ mx ≤ (W : K))) ∧
    ((-1 ≤ (normalised_mouse_position (Globals.mk ⟨mx, my⟩ ⟨W, H⟩ scene)).y ∧
        (normalised_mouse_position (Globals.mk ⟨mx, my⟩ ⟨W, H⟩ scene)).y ≤ 1) ↔
      (0 ≤ my ∧ my ≤ (H : K))) := by
  have hW2 : (0 : K) < (W : K) := Int.cast_pos.mpr hW
  have hH2 : (0 : K) < (H : K) := Int.cast_pos.mpr hH
  have hx0 : 0 ≤ mx / (W : K) ↔ 0 ≤ mx := by
    rw [le_div_iff₀ hW2, zero_mul]
  have hx1 : mx / (W : K) ≤ 1 ↔ mx ≤ (W : K) := div_le_one hW2
  have hy0 : 0 ≤ my / (H : K) ↔ 0 ≤ my := by
    rw [le_div_iff₀ hH2, zero_mul]
  have hy1 : my / (H : K) ≤ 1 ↔ my ≤ (H : K) := div_le_one hH2
  simp only [normalised_mouse_position_field]
  rw [← hx0, ← hx1, ← hy0, ← hy1]
  constructor <;> constructor <;> rintro ⟨h1, h2⟩ <;> constructor <;> linarith

/-- C11 as the code has it, over the rationals in the window of 600 by 600
pixels with the cursor at pixel `(1200, -300)`. -/
theorem normalised_mouse_in_range_iff_witness :
    (0 : Int) < 600 ∧
    (((-1 ≤ (normalised_mouse_position
          (Globals.mk (⟨1200, -300⟩ : Vec2 ℚ) ⟨600, 600⟩ 0)).x ∧
        (normalised_mouse_position
          (Globals.mk (⟨1200, -300⟩ : Vec2 ℚ) ⟨600, 600⟩ 0)).x ≤ 1) ↔
      ((0 : ℚ) ≤ 1200 ∧ (1200 : ℚ) ≤ ((600 : Int) : ℚ))) ∧
    ((-1 ≤ (normalised_mouse_position
          (Globals.mk (⟨1200, -300⟩ : Vec2 ℚ) ⟨600, 600⟩ 0)).y ∧
        (normalised_mouse_position
          (Globals.mk (⟨1200, -300⟩ : Vec2 ℚ) ⟨600, 600⟩ 0)).y ≤ 1) ↔
      ((0 : ℚ) ≤ -300 ∧ (-300 : ℚ) ≤ ((600 : Int) : ℚ)))) :=
  ⟨by decide, normalised_mouse_in_range_iff (1200 : ℚ) (-300) 600 600 0 (by decide)
    (by decide)⟩

/-- A conditional assignment to the scene leaves `chasing_pos` as it is. -/
theorem ite_setScene_chasing_pos {K F : Type} (s : State K F) (c : Prop) [Decidable c] (n : Int) :
    (if c then s.setScene n else s).chasing_pos = s.chasing_pos := by
  split_ifs <;> rfl

/-- A conditional close request leaves `chasing_pos` as it is. -/
theorem ite_close_chasing_pos {K F : Type} (s : State K F) (c : Prop) [Decidable c] :
    (if c then { s with window_should_close := true } else s).chasing_pos
      = s.chasing_pos := by
  split_ifs <;> rfl

/-- A key event leaves `chasing_pos` as it is. -/
theorem key_callback_chasing_pos {K F : Type} (s : State K F) (key scancode action mods : Int) :
    (key_callback s key scancode action mods).chasing_pos = s.chasing_pos := by
  simp only [key_callback, ite_setScene_chasing_pos, ite_close_chasing_pos]

section Generic

variable {K F : Type} [Add K] [Sub K] [Mul K] [Div K] [IntCast K] [OfScientific K]
  [IntCast F]

/-- A frame leaves `Globals` as it is. -/
theorem frame_globals (G : Glm K F) (s : State K F) : (frame G s).globals = s.globals := by
  unfold frame
  split_ifs <;> rfl

/-- C13. `chasing_pos` is written only by a frame rendered in scene 5: a
frame in any other scene (0, 1, 2, 3, 4, 6 among them) leaves it, and so does
every key event, cursor event and resize event; hence after any sequence of
events none of whose frames is rendered in scene 5, such as leaving scene 5
and entering it again, `chasing_pos` is what it was. -/
theorem chasing_pos_frame_condition (G : Glm K F) (s : State K F) :
    (s.globals.scene ≠ 5 → (frame G s).chasing_pos = s.chasing_pos) ∧
    (∀ key scancode action mods : Int,
      (key_callback s key scancode action mods).chasing_pos = s.chasing_pos) ∧
    (∀ x y : K, (CursorPositionCallback s x y).chasing_pos = s.chasing_pos) ∧
    (∀ width height : Int, (WindowSizeCallback s width height).chasing_pos = s.chasing_pos) ∧
    (∀ events : List (Event K),
      (∀ k : Nat, events[k]? = some Event.frame →
        (run G s (events.take k)).globals.scene ≠ 5) →
      (run G s events).chasing_pos = s.chasing_pos) := by
  refine ⟨fun h => by simp [frame, h], key_callback_chasing_pos s, fun _ _ => rfl,
    fun _ _ => rfl, ?_⟩
  intro events
  induction events generalizing s with
  | nil => intro _; rfl
  | cons e es ih =>
    intro h
    have hstep : (step G s e).chasing_pos = s.chasing_pos := by
      cases e with
      | key key scancode action mods =>
        exact key_callback_chasing_pos s key scancode action mods
      | cursor x y => rfl
      | resize width height => rfl
      | frame =>
        have h0 := h 0 (by simp)
        simp only [List.take_zero, run, List.foldl_nil] at h0
        simp [step, frame, h0]
    have hrest : ∀ k : Nat, es[k]? = some Event.frame →
        (run G (step G s e) (es.take k)).globals.scene ≠ 5 := by
      intro k hk
      have := h (k + 1) (by simpa using hk)
      simpa [run] using this
    have := ih (step G s e) hrest
    simp only [run, List.foldl_cons] at this ⊢
    rw [this, hstep]

end Generic

section Exact

variable {K : Type} [LinearOrderedField K]

/-- A function that returns the non-negative square root returns `y` on
`y * y` for `y ≥ 0`. -/
theorem sqrt_mul_self_eq (G : Glm K K)
    (hs : ∀ x : K, 0 ≤ x → 0 ≤ G.sqrt x ∧ G.sqrt x * G.sqrt x = x) (y : K) (hy : 0 ≤ y) :
    G.sqrt (y * y) = y := by
  obtain ⟨h0, h1⟩ := hs (y * y) (mul_self_nonneg y)
  exact (mul_self_inj_of_nonneg h0 hy).mp h1

/-- The length of a scaled vector is the scaled length, for a factor `a ≥ 0`. -/
theorem length_smul (G : Glm K K)
    (hs : ∀ x : K, 0 ≤ x → 0 ≤ G.sqrt x ∧ G.sqrt x * G.sqrt x = x) (u : Vec3 K) (a : K)
    (ha : 0 ≤ a) : length G (u.smul a) = a * length G u := by
  have hd : 0 ≤ dot u u := by
    unfold dot
    nlinarith [mul_self_nonneg u.x, mul_self_nonneg u.y, mul_self_nonneg u.z]
  obtain ⟨h0, h1⟩ := hs (dot u u) hd
  have e : dot (u.smul a) (u.smul a) = (a * G.sqrt (dot u u)) * (a * G.sqrt (dot u u)) := by
    have : dot (u.smul a) (u.smul a) = a * a * dot u u := by
      simp only [dot, Vec3.smul]; ring
    rw [this]
    calc a * a * dot u u = a * a * (G.sqrt (dot u u) * G.sqrt (dot u u)) := by rw [h1]
      _ = _ := by ring
  unfold length
  rw [e]
  exact sqrt_mul_self_eq G hs _ (mul_nonneg ha h0)

/-- One scene 5 frame over exact arithmetic: the chaser moves to
`0.99·chaser + 0.01·cursor`. -/
theorem frame_chasing_pos_exact (G : Glm K K) (hF : G.toFloat = id) (hD : G.toDouble = id)
    (s : State K K) (h5 : s.globals.scene = 5) :
    (frame G s).chasing_pos =
      (s.chasing_pos.smul 0.99).add ((mouse_pos G s.globals).smul 0.01) := by
  simp only [frame, h5, if_true, mix, hF, hD, Vec3.map, Vec3.smul, Vec3.add, id,
    Vec3.mk.injEq]
  refine ⟨?_, ?_, ?_⟩ <;> norm_num <;> ring

/-- After `n` scene 5 frames with the cursor at rest the chaser is at
`0.99ⁿ·chaser + (1 − 0.99ⁿ)·cursor`. -/
theorem run_frames_chasing_pos (G : Glm K K) (hF : G.toFloat = id) (hD : G.toDouble = id)
    (n : Nat) (s : State K K) (h5 : s.globals.scene = 5) :
    (run G s (List.replicate n Event.frame)).globals = s.globals ∧
    (run G s (List.replicate n Event.frame)).chasing_pos =
      (s.chasing_pos.smul ((0.99 : K) ^ n)).add
        ((mouse_pos G s.globals).smul (1 - (0.99 : K) ^ n)) := by
  induction n generalizing s with
  | zero =>
    refine ⟨rfl, ?_⟩
    simp [run, Vec3.smul, Vec3.add]
  | succ n ih =>
    have hg : (frame G s).globals = s.globals := frame_globals G s
    have h5f : (frame G s).globals.scene = 5 := by rw [hg]; exact h5
    obtain ⟨ih1, ih2⟩ := ih (frame G s) h5f
    have hrun : run G s (List.replicate (n + 1) Event.frame)
        = run G (frame G s) (List.replicate n Event.frame) := by
      simp [run, List.replicate_succ, step]
    rw [hrun]
    refine ⟨ih1.trans hg, ?_⟩
    rw [ih2, hg, frame_chasing_pos_exact G hF hD s h5]
    simp only [Vec3.smul, Vec3.add, Vec3.mk.injEq]
    refine ⟨?_, ?_, ?_⟩ <;> norm_num <;> ring

end Exact

/-- C12. Each scene 5 frame moves the chaser to `0.99·chaser + 0.01·cursor`
(over exact arithmetic, with a square root function that returns the
non-negative root).  So for every start position, every cursor at rest at the
normalised position `p` and every `n`, after `n` scene 5 frames the chaser is
at `0.99ⁿ·chaser₀ + (1 − 0.99ⁿ)·p`, its offset from `p` is
`0.99ⁿ·(chaser₀ − p)` and its distance from `p` is `0.99ⁿ` times the first
distance; from `chaser₀ = (0,0,0)` with `p = (0.5, 0.5, 0)` the distance to
`p` after 230 frames is less than half of the length of `p`. -/
theorem chaser_contraction {K : Type} [LinearOrderedField K] (G : Glm K K)
    (hF : G.toFloat = id) (hD : G.toDouble = id)
    (hs : ∀ x : K, 0 ≤ x → 0 ≤ G.sqrt x ∧ G.sqrt x * G.sqrt x = x)
    (s : State K K) (h5 : s.globals.scene = 5) (n : Nat) :
    (frame G s).chasing_pos =
      (s.chasing_pos.smul 0.99).add ((mouse_pos G s.globals).smul 0.01) ∧
    (run G s (List.replicate n Event.frame)).chasing_pos =
      (s.chasing_pos.smul ((0.99 : K) ^ n)).add
        ((mouse_pos G s.globals).smul (1 - (0.99 : K) ^ n)) ∧
    ((run G s (List.replicate n Event.frame)).chasing_pos).sub (mouse_pos G s.globals) =
      (s.chasing_pos.sub (mouse_pos G s.globals)).smul ((0.99 : K) ^ n) ∧
    distance G (run G s (List.replicate n Event.frame)).chasing_pos (mouse_pos G s.globals) =
      (0.99 : K) ^ n * distance G s.chasing_pos (mouse_pos G s.globals) ∧
    (s.chasing_pos = ⟨0, 0, 0⟩ → mouse_pos G s.globals = ⟨0.5, 0.5, 0⟩ →
      distance G (run G s (List.replicate 230 Event.frame)).chasing_pos
          (mouse_pos G s.globals)
        < 0.5 * length G (mouse_pos G s.globals)) := by
  have hpow : ∀ k : Nat, (0 : K) ≤ (0.99 : K) ^ k := fun k => pow_nonneg (by norm_num) k
  have hdist : ∀ k : Nat,
      distance G (run G s (List.replicate k Event.frame)).chasing_pos (mouse_pos G s.globals)
        = (0.99 : K) ^ k * distance G s.chasing_pos (mouse_pos G s.globals) := by
    intro k
    unfold distance
    rw [← length_smul G hs _ _ (hpow k), (run_frames_chasing_pos G hF hD k s h5).2]
    congr 1
    simp only [Vec3.smul, Vec3.add, Vec3.sub, Vec3.mk.injEq]
    refine ⟨?_, ?_, ?_⟩ <;> ring
  refine ⟨frame_chasing_pos_exact G hF hD s h5, (run_frames_chasing_pos G hF hD n s h5).2,
    ?_, hdist n, ?_⟩
  · rw [(run_frames_chasing_pos G hF hD n s h5).2]
    simp only [Vec3.smul, Vec3.add, Vec3.sub, Vec3.mk.injEq]
    refine ⟨?_, ?_, ?_⟩ <;> ring
  · intro hc hp
    rw [hdist 230]
    have hlen : distance G s.chasing_pos (mouse_pos G s.globals)
        = length G (mouse_pos G s.globals) := by
      unfold distance
      rw [hc]
      congr 1
      simp [Vec3.sub]
    rw [hlen]
    have hd : dot (mouse_pos G s.globals) (mouse_pos G s.globals) = 0.5 := by
      rw [hp]; simp only [dot]; norm_num
    have hpos : 0 < length G (mouse_pos G s.globals) := by
      unfold length
      rw [hd]
      obtain ⟨h0, h1⟩ := hs 0.5 (by norm_num)
      rcases lt_or_eq_of_le h0 with h | h
      · exact h
      · rw [← h] at h1; norm_num at h1
    have hsmall : (0.99 : K) ^ 230 < 0.5 := by norm_num
    exact mul_lt_mul_of_pos_right hsmall hpos

/-- C12 over the reals: scene 5, a window of 600 by 600 pixels, the cursor at
rest at pixel `(450, 150)`, which is `(0.5, 0.5)` normalised, and the chaser
at `(0,0,0)`; after 230 frames the chaser is closer to the cursor than half of
the length of `(0.5, 0.5, 0)`. -/
theorem chaser_contraction_witness :
    distance (Glm.mk Real.cos Real.sin Real.sqrt Real.pi (2 * Real.pi) id id : Glm ℝ ℝ)
        (run (Glm.mk Real.cos Real.sin Real.sqrt Real.pi (2 * Real.pi) id id : Glm ℝ ℝ)
          (State.mk (Globals.mk ⟨450, 150⟩ ⟨600, 600⟩ 5) false ⟨0, 0, 0⟩)
          (List.replicate 230 Event.frame)).chasing_pos
        (mouse_pos (Glm.mk Real.cos Real.sin Real.sqrt Real.pi (2 * Real.pi) id id)
          (Globals.mk ⟨450, 150⟩ ⟨600, 600⟩ 5))
      < 0.5 * length (Glm.mk Real.cos Real.sin Real.sqrt Real.pi (2 * Real.pi) id id)
          (mouse_pos (Glm.mk Real.cos Real.sin Real.sqrt Real.pi (2 * Real.pi) id id)
            (Globals.mk ⟨450, 150⟩ ⟨600, 600⟩ 5)) := by
  have h := chaser_contraction
    (Glm.mk Real.cos Real.sin Real.sqrt Real.pi (2 * Real.pi) id id : Glm ℝ ℝ) rfl rfl
    (fun x hx => ⟨Real.sqrt_nonneg x, Real.mul_self_sqrt hx⟩)
    (State.mk (Globals.mk ⟨450, 150⟩ ⟨600, 600⟩ 5) false ⟨0, 0, 0⟩) rfl 230
  refine h.2.2.2.2 rfl ?_
  simp only [mouse_pos, normalised_mouse_position, id, Vec3.mk.injEq]
  refine ⟨?_, ?_, ?_⟩ <;> norm_num

end ChaserClaims

/-! ## The normals: claims C16, C17 and C19 -/

section NormalClaims

/-- The normal pushed for the loop counters `v` and `r` is the normalised
cross product of `tangent_r` and `tangent_v`, in that order, converted to
`float`. -/
theorem normalAt_eq {K F : Type} [Add K] [Sub K] [Mul K] [Div K] [Neg K] [IntCast K]
    [OfScientific K] (G : Glm K F) (f : K → Vec2 K) (V R : Int) (v r : Int) :
    normalAt G f V R v r =
      Vec3.map G.toFloat
        (normalize G (cross (tangent_rAt G f V R v r) (tangent_vAt G f V R v r))) :=
  rfl

/-- The normal of row `v` and column `r` sits at slot `r * V + v`. -/
theorem getElem?_normals {K F : Type} [Add K] [Sub K] [Mul K] [Div K] [Neg K] [IntCast K]
    [OfScientific K] (G : Glm K F) (f : K → Vec2 K) (V R : Int) (hV : 1 ≤ V) (hR : 0 ≤ R) :
    ∃ mesh, GenerateParametricShape G Mesh.empty f V R = Except.ok mesh ∧
      ∀ v r : Nat, (v : Int) < V → (r : Int) < R →
        mesh.normals[r * V.toNat + v]? = some (normalAt G f V R v r) := by
  refine ⟨_, GenerateParametricShape_ok G Mesh.empty f V R hV hR, ?_⟩
  intro v r hv hr
  simp only [Mesh.empty, List.nil_append]
  rw [getElem?_grid (fun v r => normalAt G f V R v r) V.toNat R.toNat v r (by omega)
    (by omega)]

/-- Over a field the average of the forward and the backward difference is
the central difference of the specification, along the curve and around the
axis. -/
theorem tangents_eq_spec {K F : Type} [Field K] (G : Glm K F) (f : K → Vec2 K) (V R : Int)
    (v r : Int) :
    tangent_vAt G f V R v r = spec_T_v G f V R v r ∧
    tangent_rAt G f V R v r = spec_T_r G f V R v r := by
  constructor
  · simp only [tangent_vAt, spec_T_v, spec_central_difference, Vec3.sub, Vec3.add,
      Vec3.sdiv, Int.cast_one, Vec3.mk.injEq]
    refine ⟨?_, ?_, ?_⟩ <;> norm_num <;> ring
  · simp only [tangent_rAt, spec_T_r, spec_central_difference, Vec3.sub, Vec3.add,
      Vec3.sdiv, Int.cast_one, Vec3.mk.injEq]
    refine ⟨?_, ?_, ?_⟩ <;> norm_num <;> ring

/-- C19. For every curve, all `V ≥ 2`, `R ≥ 3` and every grid vertex
`(v, r)`: over exact arithmetic the averaged differences of the code are the
central differences `T_v` and `T_r` of the specification with the steps
`1/(V-1)` and `1/R`, and the normal stored at slot `r * V + v` is
`normalize(T_r × T_v)`, the cross product in that order, converted to
`float`. -/
theorem normal_refines_spec {K F : Type} [Field K] (G : Glm K F) (f : K → Vec2 K)
    (V R : Int) (hV : 2 ≤ V) (hR : 3 ≤ R) :
    ∃ mesh, GenerateParametricShape G Mesh.empty f V R = Except.ok mesh ∧
      ∀ v r : Nat, (v : Int) < V → (r : Int) < R →
        tangent_vAt G f V R v r = spec_T_v G f V R v r ∧
        tangent_rAt G f V R v r = spec_T_r G f V R v r ∧
        mesh.normals[r * V.toNat + v]? = some (Vec3.map G.toFloat
          (normalize G (cross (tangent_rAt G f V R v r) (tangent_vAt G f V R v r)))) ∧
        mesh.normals[r * V.toNat + v]? =
          some (Vec3.map G.toFloat (spec_normal G f V R v r)) := by
  obtain ⟨mesh, hm, hn⟩ := getElem?_normals G f V R (by omega) (by omega)
  refine ⟨mesh, hm, fun v r hv hr => ?_⟩
  obtain ⟨h1, h2⟩ := tangents_eq_spec G f V R v r
  refine ⟨h1, h2, ?_, ?_⟩
  · rw [hn v r hv hr, normalAt_eq]
  · rw [hn v r hv hr, normalAt_eq, h1, h2]
    rfl

/-- C19 over the reals at the circle with `V = R = 4`, row 1 of column 2. -/
theorem normal_refines_spec_witness :
    (2 : Int) ≤ 4 ∧ (3 : Int) ≤ 4 ∧
    ∃ mesh, GenerateParametricShape
        (Glm.mk Real.cos Real.sin Real.sqrt Real.pi (2 * Real.pi) id id : Glm ℝ ℝ)
        Mesh.empty
        (ParametricCircle (Glm.mk Real.cos Real.sin Real.sqrt Real.pi (2 * Real.pi) id id))
        4 4 = Except.ok mesh ∧
      mesh.normals[9]? = some (spec_normal
        (Glm.mk Real.cos Real.sin Real.sqrt Real.pi (2 * Real.pi) id id : Glm ℝ ℝ)
        (ParametricCircle (Glm.mk Real.cos Real.sin Real.sqrt Real.pi (2 * Real.pi) id id))
        4 4 1 2) := by
  refine ⟨by decide, by decide, ?_⟩
  obtain ⟨mesh, h, hn⟩ := normal_refines_spec
    (Glm.mk Real.cos Real.sin Real.sqrt Real.pi (2 * Real.pi) id id : Glm ℝ ℝ)
    (ParametricCircle (Glm.mk Real.cos Real.sin Real.sqrt Real.pi (2 * Real.pi) id id))
    4 4 (by decide) (by decide)
  obtain ⟨_, _, _, h4⟩ := hn 1 2 (by decide) (by decide)
  exact ⟨mesh, h, by simpa [Vec3.map] using h4⟩

/-- Two rotations about the Y axis compose to the rotation by the sum of the
angles, for the real cosine and sine. -/
theorem rotateY_rotateY (G : Glm ℝ ℝ) (hc : G.cos = Real.cos) (hs : G.sin = Real.sin)
    (p : Vec3 ℝ) (a b : ℝ) : rotateY G (rotateY G p a) b = rotateY G p (a + b) := by
  simp only [rotateY, hc, hs, Real.cos_add, Real.sin_add, Vec3.mk.injEq]
  refine ⟨?_, trivial, ?_⟩ <;> ring

/-- A rotation about the Y axis depends on the cosine and the sine of the
angle only. -/
theorem rotateY_congr (G : Glm ℝ ℝ) (p : Vec3 ℝ) (a b : ℝ) (hc : G.cos a = G.cos b)
    (hs : G.sin a = G.sin b) : rotateY G p a = rotateY G p b := by
  simp only [rotateY, hc, hs]

/-- Over the reals the position of row `v` and column `r`, rotated by
`2π/R` about the Y axis, is the position of row `v` and column
`(r + 1) mod R`. -/
theorem rotateY_positionAt (G : Glm ℝ ℝ) (hc : G.cos = Real.cos) (hs : G.sin = Real.sin)
    (h2 : G.two_pi = 2 * Real.pi) (hF : G.toFloat = id) (f : ℝ → Vec2 ℝ) (V : Int)
    (nR : Nat) (v r : Nat) (hr : r < nR) :
    rotateY G (positionAt G f V nR v r) (G.two_pi / ((nR : Int) : ℝ))
      = positionAt G f V nR v ((r + 1) % nR : Nat) := by
  have hR0 : ((nR : Int) : ℝ) ≠ 0 := by
    have : 0 < nR := by omega
    exact_mod_cast this.ne'
  have hmap : ∀ q : Vec3 ℝ, Vec3.map G.toFloat q = q := by
    intro q; rw [hF]; rfl
  simp only [positionAt, hmap, parametric_surface]
  rw [rotateY_rotateY G hc hs]
  rcases Nat.lt_or_ge (r + 1) nR with hlt | hge
  · rw [Nat.mod_eq_of_lt hlt]
    congr 1
    push_cast
    field_simp
    ring
  · have hrR : r + 1 = nR := by omega
    rw [← hrR, Nat.mod_self]
    apply rotateY_congr
    · rw [hc, h2]
      have e : (((r : Nat) : Int) : ℝ) / (((r + 1 : Nat) : Int) : ℝ) * (2 * Real.pi)
          + 2 * Real.pi / (((r + 1 : Nat) : Int) : ℝ) = 2 * Real.pi := by
        have hne : (((r + 1 : Nat) : Int) : ℝ) ≠ 0 := by rw [hrR]; exact hR0
        field_simp
        ring
      rw [e]
      simp
    · rw [hs, h2]
      have e : (((r : Nat) : Int) : ℝ) / (((r + 1 : Nat) : Int) : ℝ) * (2 * Real.pi)
          + 2 * Real.pi / (((r + 1 : Nat) : Int) : ℝ) = 2 * Real.pi := by
        have hne : (((r + 1 : Nat) : Int) : ℝ) ≠ 0 := by rw [hrR]; exact hR0
        field_simp
        ring
      rw [e]
      simp

/-- C16. For every curve (the half circle among them) and all `V ≥ 2`,
`R ≥ 3`, over exact real arithmetic: the position of grid vertex `(v, r)`
rotated by `2π/R` about the Y axis is the position of grid vertex
`(v, (r + 1) mod R)`, also from column `R - 1` to column `0`; so the rotation
maps the emitted positions into themselves, and every emitted position is the
rotation of an emitted position. -/
theorem positions_rotation_invariant (G : Glm ℝ ℝ) (hc : G.cos = Real.cos)
    (hs : G.sin = Real.sin) (h2 : G.two_pi = 2 * Real.pi) (hF : G.toFloat = id)
    (f : ℝ → Vec2 ℝ) (V R : Int) (hV : 2 ≤ V) (hR : 3 ≤ R) :
    ∃ mesh, GenerateParametricShape G Mesh.empty f V R = Except.ok mesh ∧
      (∀ v r : Nat, (v : Int) < V → (r : Int) < R →
        ∃ p, mesh.positions[r * V.toNat + v]? = some p ∧
          mesh.positions[((r + 1) % R.toNat) * V.toNat + v]? =
            some (rotateY G p (G.two_pi / (R : ℝ)))) ∧
      (∀ p ∈ mesh.positions, rotateY G p (G.two_pi / (R : ℝ)) ∈ mesh.positions) ∧
      (∀ q ∈ mesh.positions, ∃ p ∈ mesh.positions,
        rotateY G p (G.two_pi / (R : ℝ)) = q) := by
  obtain ⟨nR, rfl⟩ := Int.eq_ofNat_of_zero_le (by omega : (0 : Int) ≤ R)
  have hnR : 3 ≤ nR := by omega
  refine ⟨_, GenerateParametricShape_ok G Mesh.empty f V nR (by omega) (by omega), ?_, ?_,
    ?_⟩
  · intro v r hv hr
    have hr2 : r < nR := by omega
    have hmod : (r + 1) % nR < nR := Nat.mod_lt _ (by omega)
    refine ⟨positionAt G f V nR v r, ?_, ?_⟩
    · simp only [Mesh.empty, List.nil_append, Int.toNat_ofNat]
      exact getElem?_grid (fun v r => positionAt G f V nR v r) V.toNat nR v r (by omega) hr2
    · simp only [Mesh.empty, List.nil_append, Int.toNat_ofNat]
      rw [getElem?_grid (fun v r => positionAt G f V nR v r) V.toNat nR v ((r + 1) % nR)
        (by omega) hmod]
      rw [← rotateY_positionAt G hc hs h2 hF f V nR v r hr2]
  · intro p hp
    simp only [Mesh.empty, List.nil_append, Int.toNat_ofNat, List.mem_flatMap, List.mem_map,
      List.mem_range] at hp ⊢
    obtain ⟨r, hr, v, hv, rfl⟩ := hp
    exact ⟨(r + 1) % nR, Nat.mod_lt _ (by omega), v, hv,
      (rotateY_positionAt G hc hs h2 hF f V nR v r hr).symm⟩
  · intro q hq
    simp only [Mesh.empty, List.nil_append, Int.toNat_ofNat, List.mem_flatMap, List.mem_map,
      List.mem_range] at hq ⊢
    obtain ⟨r, hr, v, hv, rfl⟩ := hq
    have hprev : (r + nR - 1) % nR < nR := Nat.mod_lt _ (by omega)
    have hback : ((r + nR - 1) % nR + 1) % nR = r := by
      rcases Nat.eq_zero_or_pos r with h0 | hpos
      · subst h0
        have e : (0 + nR - 1) % nR = nR - 1 := by
          rw [Nat.zero_add]; exact Nat.mod_eq_of_lt (by omega)
        rw [e, show nR - 1 + 1 = nR by omega, Nat.mod_self]
      · have e : (r + nR - 1) % nR = r - 1 := by
          rw [show r + nR - 1 = (r - 1) + nR by omega, Nat.add_mod_right]
          exact Nat.mod_eq_of_lt (by omega)
        rw [e, show r - 1 + 1 = r by omega]
        exact Nat.mod_eq_of_lt hr
    refine ⟨positionAt G f V nR v ((r + nR - 1) % nR : Nat),
      ⟨(r + nR - 1) % nR, hprev, v, hv, rfl⟩, ?_⟩
    rw [rotateY_positionAt G hc hs h2 hF f V nR v _ hprev, hback]

/-- C16 over the reals at the half circle with `V = R = 16`, from the last
column 15 to column 0, row 5: slot 245 rotated is slot 5. -/
theorem positions_rotation_invariant_witness :
    (2 : Int) ≤ 16 ∧ (3 : Int) ≤ 16 ∧
    ∃ mesh, GenerateParametricShape
        (Glm.mk Real.cos Real.sin Real.sqrt Real.pi (2 * Real.pi) id id : Glm ℝ ℝ)
        Mesh.empty
        (ParametricHalfCircle
          (Glm.mk Real.cos Real.sin Real.sqrt Real.pi (2 * Real.pi) id id))
        16 16 = Except.ok mesh ∧
      ∃ p, mesh.positions[245]? = some p ∧
        mesh.positions[5]? = some (rotateY
          (Glm.mk Real.cos Real.sin Real.sqrt Real.pi (2 * Real.pi) id id : Glm ℝ ℝ) p
          (2 * Real.pi / ((16 : Int) : ℝ))) := by
  refine ⟨by decide, by decide, ?_⟩
  obtain ⟨mesh, h, hrot, _, _⟩ := positions_rotation_invariant
    (Glm.mk Real.cos Real.sin Real.sqrt Real.pi (2 * Real.pi) id id : Glm ℝ ℝ)
    rfl rfl rfl rfl
    (ParametricHalfCircle (Glm.mk Real.cos Real.sin Real.sqrt Real.pi (2 * Real.pi) id id))
    16 16 (by decide) (by decide)
  obtain ⟨p, hp1, hp2⟩ := hrot 5 15 (by decide) (by decide)
  exact ⟨mesh, h, p, by simpa using hp1, by simpa using hp2⟩

/-- The squared length of a normalised vector is 1 when the vector is not
zero, for a square root function that returns the non-negative root. -/
theorem dot_normalize {K : Type} [LinearOrderedField K] (G : Glm K K)
    (hs : ∀ x : K, 0 ≤ x → 0 ≤ G.sqrt x ∧ G.sqrt x * G.sqrt x = x) (c : Vec3 K)
    (hc : c ≠ ⟨0, 0, 0⟩) : dot (normalize G c) (normalize G c) = 1 := by
  have hd0 : 0 ≤ dot c c := by
    unfold dot
    nlinarith [mul_self_nonneg c.x, mul_self_nonneg c.y, mul_self_nonneg c.z]
  have hd : dot c c ≠ 0 := by
    intro h0
    apply hc
    unfold dot at h0
    have hx : c.x = 0 := by
      nlinarith [mul_self_nonneg c.x, mul_self_nonneg c.y, mul_self_nonneg c.z]
    have hy : c.y = 0 := by
      nlinarith [mul_self_nonneg c.x, mul_self_nonneg c.y, mul_self_nonneg c.z]
    have hz : c.z = 0 := by
      nlinarith [mul_self_nonneg c.x, mul_self_nonneg c.y, mul_self_nonneg c.z]
    cases c
    simp_all
  obtain ⟨h0, h1⟩ := hs (dot c c) hd0
  have hsq : G.sqrt (dot c c) ≠ 0 := by
    intro h
    rw [h, mul_zero] at h1
    exact hd h1.symm
  have e : dot (normalize G c) (normalize G c)
      = dot c c * ((1 / G.sqrt (dot c c)) * (1 / G.sqrt (dot c c))) := by
    simp only [normalize, inversesqrt, Vec3.smul, dot, Int.cast_one]
    ring
  rw [e]
  field_simp
  nth_rewrite 1 [← h1]
  ring

/-- C17, the claim at a concrete input: for the curve `t ↦ (0, t)`, which
lies on the axis, with `V = 2` and `R = 3` the call returns, and the normal
stored for grid vertex `(0, 0)` is the zero vector, of length 0: every
position is on the axis, `tangent_r` and the cross product vanish, and
`normalize` multiplies the zero vector by a scalar. -/
theorem normal_of_axis_curve_not_unit :
    (2 : Int) ≤ 2 ∧ (3 : Int) ≤ 3 ∧
    ∃ mesh, GenerateParametricShape
        (Glm.mk Real.cos Real.sin Real.sqrt Real.pi (2 * Real.pi) id id : Glm ℝ ℝ)
        Mesh.empty (fun t => (⟨0, t⟩ : Vec2 ℝ)) 2 3 = Except.ok mesh ∧
      mesh.normals[0]? = some ⟨0, 0, 0⟩ ∧
      length (Glm.mk Real.cos Real.sin Real.sqrt Real.pi (2 * Real.pi) id id : Glm ℝ ℝ)
        ⟨0, 0, 0⟩ = 0 ∧
      length (Glm.mk Real.cos Real.sin Real.sqrt Real.pi (2 * Real.pi) id id : Glm ℝ ℝ)
        ⟨0, 0, 0⟩ ≠ 1 := by
  refine ⟨by decide, by decide, ?_⟩
  obtain ⟨mesh, hm, hn⟩ := getElem?_normals
    (Glm.mk Real.cos Real.sin Real.sqrt Real.pi (2 * Real.pi) id id : Glm ℝ ℝ)
    (fun t => (⟨0, t⟩ : Vec2 ℝ)) 2 3 (by decide) (by decide)
  have hlen : length
      (Glm.mk Real.cos Real.sin Real.sqrt Real.pi (2 * Real.pi) id id : Glm ℝ ℝ)
      ⟨0, 0, 0⟩ = 0 := by
    simp [length, dot]
  refine ⟨mesh, hm, ?_, hlen, by rw [hlen]; norm_num⟩
  have h := hn 0 0 (by decide) (by decide)
  simp only [Nat.zero_mul, Nat.add_zero] at h
  rw [h]
  simp [normalAt, parametric_surface, rotateY, Vec3.sub, Vec3.add, Vec3.sdiv, cross,
    normalize, Vec3.smul, Vec3.map]

/-- C17 as the code has it: the normal is unit where the cross product is
not zero.  For every curve, all `V ≥ 2`, `R ≥ 3` and every grid vertex
`(v, r)` at which `tangent_r × tangent_v` is not the zero vector, over exact
arithmetic (with a square root function that returns the non-negative root)
the normal stored at slot `r * V + v` has squared length 1 and length 1. -/
theorem normal_unit_of_nondegenerate {K : Type} [LinearOrderedField K] (G : Glm K K)
    (hF : G.toFloat = id)
    (hs : ∀ x : K, 0 ≤ x → 0 ≤ G.sqrt x ∧ G.sqrt x * G.sqrt x = x)
    (f : K → Vec2 K) (V R : Int) (hV : 2 ≤ V) (hR : 3 ≤ R) (v r : Nat)
    (hv : (v : Int) < V) (hr : (r : Int) < R)
    (hnd : cross (tangent_rAt G f V R v r) (tangent_vAt G f V R v r) ≠ ⟨0, 0, 0⟩) :
    ∃ mesh, GenerateParametricShape G Mesh.empty f V R = Except.ok mesh ∧
      ∃ N, mesh.normals[r * V.toNat + v]? = some N ∧ dot N N = 1 ∧ length G N = 1 := by
  obtain ⟨mesh, hm, hn⟩ := getElem?_normals G f V R (by omega) (by omega)
  have hmap : ∀ q : Vec3 K, Vec3.map G.toFloat q = q := by
    intro q; rw [hF]; rfl
  have hdot := dot_normalize G hs _ hnd
  refine ⟨mesh, hm, normalAt G f V R v r, hn v r hv hr, ?_, ?_⟩
  · rw [normalAt_eq, hmap]
    exact hdot
  · rw [normalAt_eq, hmap]
    unfold length
    rw [hdot]
    simpa using sqrt_mul_self_eq G hs 1 zero_le_one

/-- C17 as the code has it, over the reals at the cylinder `t ↦ (1, t)` with
`V = 2` and `R = 4`, grid vertex `(0, 0)`: the cross product there is
`(1, 0, 0)`. -/
theorem normal_unit_of_nondegenerate_witness :
    (2 : Int) ≤ 2 ∧ (3 : Int) ≤ 4 ∧
    cross
      (tangent_rAt (Glm.mk Real.cos Real.sin Real.sqrt Real.pi (2 * Real.pi) id id : Glm ℝ ℝ)
        (fun t => (⟨1, t⟩ : Vec2 ℝ)) 2 4 0 0)
      (tangent_vAt (Glm.mk Real.cos Real.sin Real.sqrt Real.pi (2 * Real.pi) id id : Glm ℝ ℝ)
        (fun t => (⟨1, t⟩ : Vec2 ℝ)) 2 4 0 0) = ⟨1, 0, 0⟩ ∧
    ∃ mesh, GenerateParametricShape
        (Glm.mk Real.cos Real.sin Real.sqrt Real.pi (2 * Real.pi) id id : Glm ℝ ℝ)
        Mesh.empty (fun t => (⟨1, t⟩ : Vec2 ℝ)) 2 4 = Except.ok mesh ∧
      ∃ N, mesh.normals[0]? = some N ∧ dot N N = 1 ∧
        length (Glm.mk Real.cos Real.sin Real.sqrt Real.pi (2 * Real.pi) id id : Glm ℝ ℝ) N
          = 1 := by
  have a1 : (((0 : Int) : ℝ) / (((4 : Int)) : ℝ) + ((1 : Int) : ℝ) / ((4 : Int) : ℝ))
      * (2 * Real.pi) = Real.pi / 2 := by push_cast; ring
  have a2 : (((0 : Int) : ℝ) / (((4 : Int)) : ℝ) - ((1 : Int) : ℝ) / ((4 : Int) : ℝ))
      * (2 * Real.pi) = -(Real.pi / 2) := by push_cast; ring
  have a0 : (((0 : Int) : ℝ) / (((4 : Int)) : ℝ)) * (2 * Real.pi) = 0 := by push_cast; ring
  have hcross : cross
      (tangent_rAt (Glm.mk Real.cos Real.sin Real.sqrt Real.pi (2 * Real.pi) id id : Glm ℝ ℝ)
        (fun t => (⟨1, t⟩ : Vec2 ℝ)) 2 4 0 0)
      (tangent_vAt (Glm.mk Real.cos Real.sin Real.sqrt Real.pi (2 * Real.pi) id id : Glm ℝ ℝ)
        (fun t => (⟨1, t⟩ : Vec2 ℝ)) 2 4 0 0) = ⟨1, 0, 0⟩ := by
    simp only [tangent_rAt, tangent_vAt, parametric_surface, rotateY, Vec3.sub, Vec3.add,
      Vec3.sdiv, cross, a1, a2, a0, Real.cos_pi_div_two, Real.sin_pi_div_two, Real.cos_neg,
      Real.sin_neg, Real.cos_zero, Real.sin_zero, Vec3.mk.injEq]
    refine ⟨?_, ?_, ?_⟩ <;> norm_num
  refine ⟨by decide, by decide, hcross, ?_⟩
  have h := normal_unit_of_nondegenerate
    (Glm.mk Real.cos Real.sin Real.sqrt Real.pi (2 * Real.pi) id id : Glm ℝ ℝ) rfl
    (fun x hx => ⟨Real.sqrt_nonneg x, Real.mul_self_sqrt hx⟩)
    (fun t => (⟨1, t⟩ : Vec2 ℝ)) 2 4 (by decide) (by decide) 0 0 (by decide) (by decide)
    (by
      simp only [Nat.cast_zero]
      rw [hcross]
      simp)
  simpa using h

end NormalClaims

/-! ## The draws of a frame: claims C14, C15 and C18 -/

section RenderClaims

/-- C18. For every frame, whatever the OpenGL context before it, the draws
are those of the scene table: scenes 0 and 1 draw with the flat program in
wireframe mode, scene 2 with normal_color, scene 3 with directional, scene 4
with directional_piecewise, scene 5 with two_light_mouse and scene 6 with
rich_mouse, each of scenes 2 to 6 in filled mode; scenes 0 to 4 draw the four
meshes circle, half_circle, spikes, spiky_circle, scene 5 draws the
half_circle mesh twice and scene 6 draws the spiky_circle mesh of 1024 by
1024. -/
theorem render_dispatch {K F : Type} [Add K] [Sub K] [Mul K] [Div K] [Neg K] [IntCast K]
    [OfScientific K] [LT K] [DecidableRel (fun a b : K => a < b)] [Add F] [Sub F] [Mul F]
    [Div F] [IntCast F] [OfScientific F] (G : Glm K F) (Gf : Glm F F) (glfwGetTime : Nat → K)
    (s : State K F) (st : GLState F) :
    (s.globals.scene = 0 ∨ s.globals.scene = 1 →
      (drawn st (render G Gf glfwGetTime s)).map Draw.summary =
        [(some ShadingProgram.flat, PolygonMode.GL_LINE,
            some (Curve.circle, 16, 16), (Curve.circle, 16, 16)),
         (some ShadingProgram.flat, PolygonMode.GL_LINE,
            some (Curve.half_circle, 16, 16), (Curve.half_circle, 16, 16)),
         (some ShadingProgram.flat, PolygonMode.GL_LINE,
            some (Curve.spikes, 12, 6), (Curve.spikes, 12, 6)),
         (some ShadingProgram.flat, PolygonMode.GL_LINE,
            some (Curve.spiky_circle, 60, 20), (Curve.spiky_circle, 60, 20))]) ∧
    (s.globals.scene = 2 →
      (drawn st (render G Gf glfwGetTime s)).map Draw.summary =
        [(some ShadingProgram.normal_color, PolygonMode.GL_FILL,
            some (Curve.circle, 16, 16), (Curve.circle, 16, 16)),
         (some ShadingProgram.normal_color, PolygonMode.GL_FILL,
            some (Curve.half_circle, 16, 16), (Curve.half_circle, 16, 16)),
         (some ShadingProgram.normal_color, PolygonMode.GL_FILL,
            some (Curve.spikes, 12, 6), (Curve.spikes, 12, 6)),
         (some ShadingProgram.normal_color, PolygonMode.GL_FILL,
            some (Curve.spiky_circle, 60, 20), (Curve.spiky_circle, 60, 20))]) ∧
    (s.globals.scene = 3 →
      (drawn st (render G Gf glfwGetTime s)).map Draw.summary =
        [(some ShadingProgram.directional, PolygonMode.GL_FILL,
            some (Curve.circle, 16, 16), (Curve.circle, 16, 16)),
         (some ShadingProgram.directional, PolygonMode.GL_FILL,
            some (Curve.half_circle, 16, 16), (Curve.half_circle, 16, 16)),
         (some ShadingProgram.directional, PolygonMode.GL_FILL,
            some (Curve.spikes, 12, 6), (Curve.spikes, 12, 6)),
         (some ShadingProgram.directional, PolygonMode.GL_FILL,
            some (Curve.spiky_circle, 60, 20), (Curve.spiky_circle, 60, 20))]) ∧
    (s.globals.scene = 4 →
      (drawn st (render G Gf glfwGetTime s)).map Draw.summary =
        [(some ShadingProgram.directional_piecewise, PolygonMode.GL_FILL,
            some (Curve.circle, 16, 16), (Curve.circle, 16, 16)),
         (some ShadingProgram.directional_piecewise, PolygonMode.GL_FILL,
            some (Curve.half_circle, 16, 16), (Curve.half_circle, 16, 16)),
         (some ShadingProgram.directional_piecewise, PolygonMode.GL_FILL,
            some (Curve.spikes, 12, 6), (Curve.spikes, 12, 6)),
         (some ShadingProgram.directional_piecewise, PolygonMode.GL_FILL,
            some (Curve.spiky_circle, 60, 20), (Curve.spiky_circle, 60, 20))]) ∧
    (s.globals.scene = 5 →
      (drawn st (render G Gf glfwGetTime s)).map Draw.summary =
        [(some ShadingProgram.two_light_mouse, PolygonMode.GL_FILL,
            some (Curve.half_circle, 16, 16), (Curve.half_circle, 16, 16)),
         (some ShadingProgram.two_light_mouse, PolygonMode.GL_FILL,
            some (Curve.half_circle, 16, 16), (Curve.half_circle, 16, 16))]) ∧
    (s.globals.scene = 6 →
      (drawn st (render G Gf glfwGetTime s)).map Draw.summary =
        [(some ShadingProgram.rich_mouse, PolygonMode.GL_FILL,
            some (Curve.spiky_circle, 1024, 1024), (Curve.spiky_circle, 1024, 1024))]) := by
  refine ⟨?_, ?_, ?_, ?_, ?_, ?_⟩
  · rintro (h | h) <;>
      simp [render, h, quad_draws, drawn, GLState.exec, Draw.summary, Program.shading,
        VAO.mesh, UniformLocation.owner, UniformLocation.uniform]
  all_goals
    intro h
    simp [render, h, quad_draws, drawn, GLState.exec, Draw.summary, Program.shading,
      VAO.mesh, UniformLocation.owner, UniformLocation.uniform]

/-- One scene 5 frame over exact arithmetic multiplies the distance of the
chaser from the cursor by 0.99. -/
theorem distance_frame_exact {K : Type} [LinearOrderedField K] (G : Glm K K)
    (hF : G.toFloat = id) (hD : G.toDouble = id)
    (hs : ∀ x : K, 0 ≤ x → 0 ≤ G.sqrt x ∧ G.sqrt x * G.sqrt x = x)
    (s : State K K) (h5 : s.globals.scene = 5) :
    distance G (frame G s).chasing_pos (mouse_pos G s.globals)
      = 0.99 * distance G s.chasing_pos (mouse_pos G s.globals) := by
  unfold distance
  rw [← length_smul G hs _ _ (by norm_num), frame_chasing_pos_exact G hF hD s h5]
  congr 1
  simp only [Vec3.smul, Vec3.add, Vec3.sub, Vec3.mk.injEq]
  refine ⟨?_, ?_, ?_⟩ <;> norm_num <;> ring

/-- The two draws of a scene 5 frame: the chaser, then the leader. -/
theorem drawn_scene5 {K F : Type} [Add K] [Sub K] [Mul K] [Div K] [Neg K] [IntCast K]
    [OfScientific K] [LT K] [DecidableRel (fun a b : K => a < b)] [Add F] [Sub F] [Mul F]
    [Div F] [IntCast F] [OfScientific F] (G : Glm K F) (Gf : Glm F F) (glfwGetTime : Nat → K)
    (s : State K F) (st : GLState F) (h5 : s.globals.scene = 5) :
    drawn st (render G Gf glfwGetTime s) =
      [{ program := some Program.program_5
         polygon_mode := PolygonMode.GL_FILL
         vertex_array := some VAO.shape1_VAO
         count := VAO.shape1_VAO
         u_transform := some
           ((translate (Mat4.diagonal ((1 : Int) : F)) (frame G s).chasing_pos).mul
             (scale (Mat4.diagonal ((1 : Int) : F))
               ⟨G.toFloat 0.3, G.toFloat 0.3, G.toFloat 0.3⟩))
         u_color := some ⟨G.toFloat 0.5, G.toFloat 0.5, G.toFloat 0.5⟩
         u_mouse_position := st.u_mouse_position Program.program_5 },
       { program := some Program.program_5
         polygon_mode := PolygonMode.GL_FILL
         vertex_array := some VAO.shape1_VAO
         count := VAO.shape1_VAO
         u_transform := some
           ((translate (Mat4.diagonal ((1 : Int) : F)) (mouse_pos G s.globals)).mul
             (scale (Mat4.diagonal ((1 : Int) : F))
               ⟨G.toFloat 0.3, G.toFloat 0.3, G.toFloat 0.3⟩))
         u_color := some (leader_color G Gf (frame G s).chasing_pos (mouse_pos G s.globals))
         u_mouse_position := st.u_mouse_position Program.program_5 }] := by
  simp [render, h5, frame, drawn, GLState.exec, UniformLocation.owner,
    UniformLocation.uniform]

/-- Over a field the product of a translation and a scaling of the identity
maps the origin to the translation vector. -/
theorem gl_Position_translate_scale {K : Type} [Field K] (v w : Vec3 K) :
    gl_Position ((translate (Mat4.diagonal ((1 : Int) : K)) v).mul
        (scale (Mat4.diagonal ((1 : Int) : K)) w)) ⟨0, 0, 0⟩ = ⟨v.x, v.y, v.z, 1⟩ := by
  simp [gl_Position, Mat4.mul, translate, scale, Mat4.diagonal, Vec4.add, Vec4.smul]

/-- C14. In every scene 5 frame, whatever the conversions between `float`
and `double` do, the chaser is drawn with colour `(0.5, 0.5, 0.5)` at the
position `chasing_pos` has after the update of this frame, and the leader is
drawn green `(0,1,0)` if the distance of that position from the cursor exceeds
0.6 and red `(1,0,0)` otherwise.  Over exact arithmetic the distance is 0.99
times the distance `d` before the frame, so the leader is green exactly when
`0.99·d > 0.6`; with the chaser at `(0,0,0)` and the cursor at `(0.9, 0)` the
leader is green. -/
theorem scene5_colors {K : Type} [LinearOrderedField K] (G : Glm K K)
    (glfwGetTime : Nat → K) (s : State K K) (st : GLState K) (h5 : s.globals.scene = 5) :
    ∃ chaser leader : Draw K, drawn st (render G G glfwGetTime s) = [chaser, leader] ∧
      chaser.u_color = some ⟨G.toFloat 0.5, G.toFloat 0.5, G.toFloat 0.5⟩ ∧
      chaser.u_transform = some
        ((translate (Mat4.diagonal ((1 : Int) : K)) (frame G s).chasing_pos).mul
          (scale (Mat4.diagonal ((1 : Int) : K))
            ⟨G.toFloat 0.3, G.toFloat 0.3, G.toFloat 0.3⟩)) ∧
      leader.u_transform = some
        ((translate (Mat4.diagonal ((1 : Int) : K)) (mouse_pos G s.globals)).mul
          (scale (Mat4.diagonal ((1 : Int) : K))
            ⟨G.toFloat 0.3, G.toFloat 0.3, G.toFloat 0.3⟩)) ∧
      (0.6 < G.toDouble (distance G (frame G s).chasing_pos (mouse_pos G s.globals)) →
        leader.u_color = some ⟨0, 1, 0⟩) ∧
      (¬ 0.6 < G.toDouble (distance G (frame G s).chasing_pos (mouse_pos G s.globals)) →
        leader.u_color = some ⟨1, 0, 0⟩) ∧
      (G.toFloat = id → G.toDouble = id →
        (∀ x : K, 0 ≤ x → 0 ≤ G.sqrt x ∧ G.sqrt x * G.sqrt x = x) →
        chaser.u_color = some ⟨0.5, 0.5, 0.5⟩ ∧
        (∃ m, chaser.u_transform = some m ∧
          gl_Position m ⟨0, 0, 0⟩ = ⟨(frame G s).chasing_pos.x, (frame G s).chasing_pos.y,
            (frame G s).chasing_pos.z, 1⟩) ∧
        (∃ m, leader.u_transform = some m ∧
          gl_Position m ⟨0, 0, 0⟩ = ⟨(mouse_pos G s.globals).x, (mouse_pos G s.globals).y,
            (mouse_pos G s.globals).z, 1⟩) ∧
        distance G (frame G s).chasing_pos (mouse_pos G s.globals)
          = 0.99 * distance G s.chasing_pos (mouse_pos G s.globals) ∧
        (leader.u_color = some ⟨0, 1, 0⟩ ↔
          0.6 < 0.99 * distance G s.chasing_pos (mouse_pos G s.globals)) ∧
        (s.chasing_pos = ⟨0, 0, 0⟩ → mouse_pos G s.globals = ⟨0.9, 0, 0⟩ →
          leader.u_color = some ⟨0, 1, 0⟩)) := by
  refine ⟨_, _, drawn_scene5 G G glfwGetTime s st h5, rfl, rfl, rfl, ?_, ?_, ?_⟩
  · intro h
    simp [leader_color, h]
  · intro h
    simp [leader_color, h]
  · intro hF hD hs
    have hdist := distance_frame_exact G hF hD hs s h5
    have hiff : (some (leader_color G G (frame G s).chasing_pos (mouse_pos G s.globals))
          = some (⟨0, 1, 0⟩ : Vec3 K)) ↔
        0.6 < 0.99 * distance G s.chasing_pos (mouse_pos G s.globals) := by
      rw [← hdist]
      unfold leader_color
      rw [hD]
      by_cases h : (0.6 : K) < id (distance G (frame G s).chasing_pos (mouse_pos G s.globals))
      · simp only [h, if_true]
        simpa using h
      · simp only [h, if_false]
        constructor
        · intro hcol
          simp at hcol
        · intro hlt
          exact absurd hlt h
    refine ⟨?_, ⟨_, rfl, gl_Position_translate_scale _ _⟩,
      ⟨_, rfl, gl_Position_translate_scale _ _⟩, hdist, hiff, ?_⟩
    · simp [hF]
    · intro hc hp
      apply hiff.mpr
      have hlen : distance G s.chasing_pos (mouse_pos G s.globals) = 0.9 := by
        unfold distance length
        rw [hc, hp]
        have e : dot ((⟨0.9, 0, 0⟩ : Vec3 K).sub ⟨0, 0, 0⟩) ((⟨0.9, 0, 0⟩ : Vec3 K).sub ⟨0, 0, 0⟩)
            = 0.9 * 0.9 := by
          simp [dot, Vec3.sub]
        rw [e]
        exact sqrt_mul_self_eq G hs 0.9 (by norm_num)
      rw [hlen]
      norm_num

/-- C14 over the reals: scene 5 in a window of 600 by 600 pixels with the
cursor at pixel `(570, 300)`, which is `(0.9, 0)` normalised, and the chaser
at `(0,0,0)`: the chaser is drawn grey and the leader green. -/
theorem scene5_colors_witness :
    ∃ chaser leader : Draw ℝ,
      drawn GLState.initial
        (render (Glm.mk Real.cos Real.sin Real.sqrt Real.pi (2 * Real.pi) id id : Glm ℝ ℝ)
          (Glm.mk Real.cos Real.sin Real.sqrt Real.pi (2 * Real.pi) id id) (fun _ => 0)
          (State.mk (Globals.mk ⟨570, 300⟩ ⟨600, 600⟩ 5) false ⟨0, 0, 0⟩))
        = [chaser, leader] ∧
      chaser.u_color = some ⟨0.5, 0.5, 0.5⟩ ∧ leader.u_color = some ⟨0, 1, 0⟩ := by
  obtain ⟨chaser, leader, hd, _, _, _, _, _, hex⟩ := scene5_colors
    (Glm.mk Real.cos Real.sin Real.sqrt Real.pi (2 * Real.pi) id id : Glm ℝ ℝ) (fun _ => 0)
    (State.mk (Globals.mk ⟨570, 300⟩ ⟨600, 600⟩ 5) false ⟨0, 0, 0⟩) GLState.initial rfl
  obtain ⟨hgrey, _, _, _, _, hgreen⟩ := hex rfl rfl
    (fun x hx => ⟨Real.sqrt_nonneg x, Real.mul_self_sqrt hx⟩)
  refine ⟨chaser, leader, hd, hgrey, hgreen rfl ?_⟩
  simp only [mouse_pos, normalised_mouse_position, id, Vec3.mk.injEq]
  refine ⟨?_, ?_, ?_⟩ <;> norm_num

/-- Over exact arithmetic the four transforms of scenes 0 to 4 map the origin
to `(0.48, 0.48)`, `(-0.4, 0.48)`, `(0.48, -0.48)` and `(-0.36, -0.44)`,
whatever the rotation angles are. -/
theorem quad_transforms_origin {K : Type} [LinearOrderedField K] (G : Glm K K)
    (hF : G.toFloat = id) (Gf : Glm K K) (glfwGetTime : Nat → K) :
    gl_Position (quad_transforms G Gf glfwGetTime).1 ⟨0, 0, 0⟩ = ⟨0.48, 0.48, 0, 1⟩ ∧
    gl_Position (quad_transforms G Gf glfwGetTime).2.1 ⟨0, 0, 0⟩ = ⟨-0.4, 0.48, 0, 1⟩ ∧
    gl_Position (quad_transforms G Gf glfwGetTime).2.2.1 ⟨0, 0, 0⟩ = ⟨0.48, -0.48, 0, 1⟩ ∧
    gl_Position (quad_transforms G Gf glfwGetTime).2.2.2 ⟨0, 0, 0⟩
      = ⟨-0.36, -0.44, 0, 1⟩ := by
  refine ⟨?_, ?_, ?_, ?_⟩ <;>
    simp only [quad_transforms, rotate, translate, scale, Mat4.diagonal, gl_Position,
      Vec4.add, Vec4.smul, hF, id, Int.cast_zero, Int.cast_one, mul_zero, zero_mul, add_zero,
      zero_add, mul_one, Vec4.mk.injEq] <;>
    refine ⟨?_, ?_, ?_, ?_⟩ <;> norm_num

/-- The four draws of a frame in scenes 0 to 4, each with the bound vertex
array object and the point its transform maps the origin to. -/
theorem drawn_quad_origins {K : Type} [LinearOrderedField K] (G : Glm K K)
    (hF : G.toFloat = id) (Gf : Glm K K) (glfwGetTime : Nat → K) (s : State K K)
    (st : GLState K) (hs : 0 ≤ s.globals.scene ∧ s.globals.scene ≤ 4) :
    (drawn st (render G Gf glfwGetTime s)).map
        (fun d => (d.vertex_array, d.u_transform.map (fun m => gl_Position m ⟨0, 0, 0⟩))) =
      [(some VAO.shape_VAO, some ⟨0.48, 0.48, 0, 1⟩),
       (some VAO.shape1_VAO, some ⟨-0.4, 0.48, 0, 1⟩),
       (some VAO.shape3_VAO, some ⟨0.48, -0.48, 0, 1⟩),
       (some VAO.shape2_VAO, some ⟨-0.36, -0.44, 0, 1⟩)] := by
  obtain ⟨o1, o2, o3, o4⟩ := quad_transforms_origin G hF Gf glfwGetTime
  have hcases : s.globals.scene = 0 ∨ s.globals.scene = 1 ∨ s.globals.scene = 2 ∨
      s.globals.scene = 3 ∨ s.globals.scene = 4 := by omega
  rcases hcases with h | h | h | h | h <;>
    simp [render, h, quad_draws, drawn, GLState.exec, UniformLocation.owner,
      UniformLocation.uniform, o1, o2, o3, o4]

/-- C15, the claim at a concrete input: scene 0 at time 0 over the reals.
The half_circle mesh (`shape1_VAO`) is drawn with its origin at
`(-0.4, 0.48)`, not `(-0.48, 0.48)`, and the spiky_circle mesh (`shape2_VAO`)
with its origin at `(-0.36, -0.44)`, not `(-0.48, -0.48)`. -/
theorem quad_layout_not_symmetric :
    (drawn GLState.initial
        (render (Glm.mk Real.cos Real.sin Real.sqrt Real.pi (2 * Real.pi) id id : Glm ℝ ℝ)
          (Glm.mk Real.cos Real.sin Real.sqrt Real.pi (2 * Real.pi) id id) (fun _ => 0)
          (State.mk (Globals.mk ⟨0, 0⟩ ⟨600, 600⟩ 0) false ⟨0, 0, 0⟩))).map
        (fun d => (d.vertex_array, d.u_transform.map (fun m => gl_Position m ⟨0, 0, 0⟩))) =
      [(some VAO.shape_VAO, some ⟨0.48, 0.48, 0, 1⟩),
       (some VAO.shape1_VAO, some ⟨-0.4, 0.48, 0, 1⟩),
       (some VAO.shape3_VAO, some ⟨0.48, -0.48, 0, 1⟩),
       (some VAO.shape2_VAO, some ⟨-0.36, -0.44, 0, 1⟩)] ∧
    VAO.shape1_VAO.mesh = (Curve.half_circle, 16, 16) ∧
    VAO.shape2_VAO.mesh = (Curve.spiky_circle, 60, 20) ∧
    (⟨-0.4, 0.48, 0, 1⟩ : Vec4 ℝ) ≠ ⟨-0.48, 0.48, 0, 1⟩ ∧
    (⟨-0.36, -0.44, 0, 1⟩ : Vec4 ℝ) ≠ ⟨-0.48, -0.48, 0, 1⟩ := by
  refine ⟨drawn_quad_origins _ rfl _ _ _ _ ⟨le_refl _, by decide⟩, rfl, rfl, ?_, ?_⟩
  · intro h
    have := congrArg Vec4.x h
    norm_num at this
  · intro h
    have := congrArg Vec4.x h
    norm_num at this

/-- C15 as the code has it: in each of the scenes 0, 1, 2, 3 and 4 and at
every time, over exact arithmetic the four transforms (scale 0.4, then a
translation, then a rotation about `(1,1,0)`) map the mesh origin to
`(0.48, 0.48)` for the circle, `(-0.4, 0.48)` for the half_circle,
`(0.48, -0.48)` for the spikes and `(-0.36, -0.44)` for the spiky_circle: one
mesh in each quadrant, the two on the left closer to the centre than
`-0.48`. -/
theorem quad_layout_centres {K : Type} [LinearOrderedField K] (G : Glm K K)
    (hF : G.toFloat = id) (Gf : Glm K K) (glfwGetTime : Nat → K) (s : State K K)
    (st : GLState K) (hs : 0 ≤ s.globals.scene ∧ s.globals.scene ≤ 4) :
    (drawn st (render G Gf glfwGetTime s)).map
        (fun d => (d.vertex_array.map VAO.mesh,
          d.u_transform.map (fun m => gl_Position m ⟨0, 0, 0⟩))) =
      [(some (Curve.circle, 16, 16), some ⟨0.48, 0.48, 0, 1⟩),
       (some (Curve.half_circle, 16, 16), some ⟨-0.4, 0.48, 0, 1⟩),
       (some (Curve.spikes, 12, 6), some ⟨0.48, -0.48, 0, 1⟩),
       (some (Curve.spiky_circle, 60, 20), some ⟨-0.36, -0.44, 0, 1⟩)] := by
  have h := congrArg (List.map (fun (p : Option VAO × Option (Vec4 K)) =>
    (p.1.map VAO.mesh, p.2))) (drawn_quad_origins G hF Gf glfwGetTime s st hs)
  simpa [List.map_map, Function.comp_def, VAO.mesh] using h

/-- C15 as the code has it, over the reals in scene 4 with a clock that
advances between the four calls of `glfwGetTime`. -/
theorem quad_layout_centres_witness :
    ((0 : Int) ≤ 4 ∧ (4 : Int) ≤ 4) ∧
    (drawn GLState.initial
        (render (Glm.mk Real.cos Real.sin Real.sqrt Real.pi (2 * Real.pi) id id : Glm ℝ ℝ)
          (Glm.mk Real.cos Real.sin Real.sqrt Real.pi (2 * Real.pi) id id)
          (fun k => 3 + (k : ℝ) / 1000)
          (State.mk (Globals.mk ⟨0, 0⟩ ⟨600, 600⟩ 4) false ⟨0, 0, 0⟩))).map
        (fun d => (d.vertex_array.map VAO.mesh,
          d.u_transform.map (fun m => gl_Position m ⟨0, 0, 0⟩))) =
      [(some (Curve.circle, 16, 16), some ⟨0.48, 0.48, 0, 1⟩),
       (some (Curve.half_circle, 16, 16), some ⟨-0.4, 0.48, 0, 1⟩),
       (some (Curve.spikes, 12, 6), some ⟨0.48, -0.48, 0, 1⟩),
       (some (Curve.spiky_circle, 60, 20), some ⟨-0.36, -0.44, 0, 1⟩)] :=
  ⟨⟨by decide, by decide⟩, quad_layout_centres
    (Glm.mk Real.cos Real.sin Real.sqrt Real.pi (2 * Real.pi) id id : Glm ℝ ℝ) rfl
    (Glm.mk Real.cos Real.sin Real.sqrt Real.pi (2 * Real.pi) id id)
    (fun k => 3 + (k : ℝ) / 1000)
    (State.mk (Globals.mk ⟨0, 0⟩ ⟨600, 600⟩ 4) false ⟨0, 0, 0⟩) GLState.initial
    ⟨by decide, by decide⟩⟩

end RenderClaims

/-! ## The winding: claim C20 -/

section WindingClaims

/-- A slot determines its row and its column. -/
theorem slot_inj (nV a1 b1 a2 b2 : Nat) (h1 : a1 < nV) (h2 : a2 < nV)
    (h : b1 * nV + a1 = b2 * nV + a2) : a1 = a2 ∧ b1 = b2 := by
  have hb : b1 = b2 := by
    rcases Nat.lt_trichotomy b1 b2 with hlt | heq | hgt
    · have : (b1 + 1) * nV ≤ b2 * nV := Nat.mul_le_mul_right nV hlt
      have e : (b1 + 1) * nV = b1 * nV + nV := Nat.succ_mul b1 nV
      omega
    · exact heq
    · have : (b2 + 1) * nV ≤ b1 * nV := Nat.mul_le_mul_right nV hgt
      have e : (b2 + 1) * nV = b2 * nV + nV := Nat.succ_mul b2 nV
      omega
  subst hb
  exact ⟨by omega, rfl⟩

/-- The rows of the ends of a quad edge are `v` or `v + 1`. -/
theorem quadEdge_rows (v r c k nV : Nat) (hv : v + 1 < nV) :
    (quadEdge v r c k).1.1 < nV ∧ (quadEdge v r c k).2.1 < nV := by
  unfold quadEdge
  split <;> constructor <;> simp <;> omega

/-- Two quad edges with the same pair of slots have the same grid
coordinates. -/
theorem slotPair_inj (nV : Nat) (p q : (Nat × Nat) × (Nat × Nat)) (hp1 : p.1.1 < nV)
    (hp2 : p.2.1 < nV) (hq1 : q.1.1 < nV) (hq2 : q.2.1 < nV)
    (h : slotPair nV p = slotPair nV q) : p = q := by
  obtain ⟨⟨a1, b1⟩, ⟨a2, b2⟩⟩ := p
  obtain ⟨⟨a3, b3⟩, ⟨a4, b4⟩⟩ := q
  simp only [slotPair, Prod.mk.injEq] at h
  obtain ⟨h1, h2⟩ := h
  obtain ⟨e1, e2⟩ := slot_inj nV a1 b1 a3 b3 hp1 hq1 h1
  obtain ⟨e3, e4⟩ := slot_inj nV a2 b2 a4 b4 hp2 hq2 h2
  simp only [Prod.mk.injEq]
  exact ⟨⟨e1, e2⟩, ⟨e3, e4⟩⟩

/-- With at least three columns a directed quad edge, as grid coordinates,
determines its quad and its number: the six edges of a quad differ in the
steps they take in row and column, and column `r + 1` wraps to `0`. -/
theorem quadEdge_inj (nR v1 r1 c1 k1 v2 r2 c2 k2 : Nat) (hR : 3 ≤ nR) (hk1 : k1 < 6)
    (hk2 : k2 < 6) (hr1 : r1 < nR)
    (hc1 : (r1 + 1 < nR ∧ c1 = r1 + 1) ∨ (r1 + 1 = nR ∧ c1 = 0))
    (hc2 : (r2 + 1 < nR ∧ c2 = r2 + 1) ∨ (r2 + 1 = nR ∧ c2 = 0))
    (h : quadEdge v1 r1 c1 k1 = quadEdge v2 r2 c2 k2) : v1 = v2 ∧ r1 = r2 ∧ k1 = k2 := by
  interval_cases k1 <;> interval_cases k2 <;>
    simp only [quadEdge, Prod.mk.injEq] at h <;> omega

/-- The stored index of row `v` and the column after `r` is the slot of row
`v` in column `(r + 1) mod R`. -/
theorem toGLuint_VRtoIndex_succ (V R : Int) (v r : Nat) (hV : 0 ≤ V) (hr : (r : Int) < R) :
    toGLuint (VRtoIndex V R v ((r : Int) + 1)) = ((r + 1) % R.toNat) * V.toNat + v := by
  rcases lt_or_eq_of_le (by omega : (r : Int) + 1 ≤ R) with hlt | heq
  · have e : ((r : Int) + 1) = ((r + 1 : Nat) : Int) := by push_cast; rfl
    rw [e, toGLuint_VRtoIndex_of_lt V R v (r + 1) hV (by omega),
      Nat.mod_eq_of_lt (by omega)]
  · rw [heq, toGLuint_VRtoIndex_wrap]
    have : r + 1 = R.toNat := by omega
    rw [this, Nat.mod_self, Nat.zero_mul, Nat.zero_add]

/-- The six values of one quad as slots: entry `k` and the entry after it in
its triangle are the slots of the ends of quad edge `k`. -/
theorem pushQuad_slots (V R : Int) (v r : Nat) (hV : 0 ≤ V) (hr : (r : Int) < R) :
    pushQuad V R v r [] =
      [r * V.toNat + (v + 1), ((r + 1) % R.toNat) * V.toNat + v, r * V.toNat + v,
       r * V.toNat + (v + 1), ((r + 1) % R.toNat) * V.toNat + (v + 1),
       ((r + 1) % R.toNat) * V.toNat + v] := by
  have e : ((v : Int) + 1) = ((v + 1 : Nat) : Int) := by push_cast; rfl
  rw [pushQuad_nil, e, toGLuint_VRtoIndex_of_lt V R v r hV hr,
    toGLuint_VRtoIndex_of_lt V R (v + 1) r hV hr, toGLuint_VRtoIndex_succ V R v r hV hr,
    toGLuint_VRtoIndex_succ V R (v + 1) r hV hr]

/-- The directed edge `e` of triangle `h` (0 or 1) of the quad of row `v` and
column `r` is the pair of slots of quad edge `3 * h + e`. -/
theorem directedEdge_quads (V R : Int) (hV : 2 ≤ V) (v r h e : Nat)
    (hv : v < (V - 1).toNat) (hr : r < R.toNat) (hh : h < 2) (he : e < 3) :
    directedEdge ((List.range R.toNat).flatMap (fun (r : Nat) =>
        (List.range (V - 1).toNat).flatMap (fun (v : Nat) => pushQuad V R v r [])))
      (2 * (r * (V - 1).toNat + v) + h) e
      = some (slotPair V.toNat (quadEdge v r ((r + 1) % R.toNat) (3 * h + e))) := by
  have i1 : 3 * (2 * (r * (V - 1).toNat + v) + h) + e % 3
      = 6 * (r * (V - 1).toNat + v) + (3 * h + e % 3) := by ring
  have i2 : 3 * (2 * (r * (V - 1).toNat + v) + h) + (e + 1) % 3
      = 6 * (r * (V - 1).toNat + v) + (3 * h + (e + 1) % 3) := by ring
  have hm1 : e % 3 < 3 := Nat.mod_lt _ (by decide)
  have hm2 : (e + 1) % 3 < 3 := Nat.mod_lt _ (by decide)
  unfold directedEdge
  rw [i1, i2, getElem?_quads V R _ _ v r _ hv hr (by omega),
    getElem?_quads V R _ _ v r _ hv hr (by omega),
    pushQuad_slots V R v r (by omega) (by omega)]
  interval_cases h <;> interval_cases e <;> simp [slotPair, quadEdge]

/-- A triangle number below the triangle count is triangle `h` (0 or 1) of
the quad of some row `v` and column `r`. -/
theorem triangle_decode (n1 nR t : Nat) (h1 : 0 < n1) (ht : 3 * t + 2 < nR * (n1 * 6)) :
    ∃ v r h : Nat, v < n1 ∧ r < nR ∧ h < 2 ∧ t = 2 * (r * n1 + v) + h := by
  have hq : t / 2 < n1 * nR := by
    have e : nR * (n1 * 6) = 6 * (n1 * nR) := by ring
    omega
  refine ⟨(t / 2) % n1, (t / 2) / n1, t % 2, Nat.mod_lt _ h1,
    Nat.div_lt_of_lt_mul hq, Nat.mod_lt _ (by decide), ?_⟩
  have e1 := Nat.div_add_mod (t / 2) n1
  have e2 : (t / 2) / n1 * n1 = n1 * ((t / 2) / n1) := Nat.mul_comm _ _
  omega

/-- C20. For all `V ≥ 2` and `R ≥ 3` no ordered pair of vertex indices is a
directed edge (two cyclically consecutive indices of one triangle) of more
than one triangle of the emitted index list, nor twice of one triangle; so
two different triangles that share an edge, the pairs across the seam between
column `R - 1` and column `0` among them, traverse it in opposite
directions. -/
theorem winding_consistent {K F : Type} [Add K] [Sub K] [Mul K] [Div K] [Neg K] [IntCast K]
    [OfScientific K] (G : Glm K F) (f : K → Vec2 K) (V R : Int) (hV : 2 ≤ V) (hR : 3 ≤ R) :
    ∃ mesh, GenerateParametricShape G Mesh.empty f V R = Except.ok mesh ∧
      (∀ t1 e1 t2 e2 : Nat, 3 * t1 + 2 < mesh.indices.length →
        3 * t2 + 2 < mesh.indices.length → e1 < 3 → e2 < 3 →
        directedEdge mesh.indices t1 e1 = directedEdge mesh.indices t2 e2 →
        t1 = t2 ∧ e1 = e2) ∧
      (∀ t1 e1 t2 e2 a b : Nat, 3 * t1 + 2 < mesh.indices.length →
        3 * t2 + 2 < mesh.indices.length → e1 < 3 → e2 < 3 → t1 ≠ t2 →
        directedEdge mesh.indices t1 e1 = some (a, b) →
        (directedEdge mesh.indices t2 e2 = some (a, b) ∨
          directedEdge mesh.indices t2 e2 = some (b, a)) →
        directedEdge mesh.indices t2 e2 = some (b, a)) := by
  have hn1 : 0 < (V - 1).toNat := by omega
  have hkey : ∀ t1 e1 t2 e2 : Nat,
      3 * t1 + 2 < ((List.range R.toNat).flatMap (fun (r : Nat) =>
        (List.range (V - 1).toNat).flatMap (fun (v : Nat) => pushQuad V R v r []))).length →
      3 * t2 + 2 < ((List.range R.toNat).flatMap (fun (r : Nat) =>
        (List.range (V - 1).toNat).flatMap (fun (v : Nat) => pushQuad V R v r []))).length →
      e1 < 3 → e2 < 3 →
      directedEdge ((List.range R.toNat).flatMap (fun (r : Nat) =>
        (List.range (V - 1).toNat).flatMap (fun (v : Nat) => pushQuad V R v r []))) t1 e1
        = directedEdge ((List.range R.toNat).flatMap (fun (r : Nat) =>
        (List.range (V - 1).toNat).flatMap (fun (v : Nat) => pushQuad V R v r []))) t2 e2 →
      t1 = t2 ∧ e1 = e2 := by
    intro t1 e1 t2 e2 ht1 ht2 he1 he2 h
    rw [length_flatMap_range _ ((V - 1).toNat * 6) (fun r =>
      length_flatMap_range _ 6 (fun v => length_pushQuad_nil V R v r) _)] at ht1 ht2
    obtain ⟨v1, r1, h1, hv1, hr1, hh1, rfl⟩ := triangle_decode _ _ t1 hn1 ht1
    obtain ⟨v2, r2, h2, hv2, hr2, hh2, rfl⟩ := triangle_decode _ _ t2 hn1 ht2
    rw [directedEdge_quads V R hV v1 r1 h1 e1 hv1 hr1 hh1 he1,
      directedEdge_quads V R hV v2 r2 h2 e2 hv2 hr2 hh2 he2] at h
    have hrows1 := quadEdge_rows v1 r1 ((r1 + 1) % R.toNat) (3 * h1 + e1) V.toNat (by omega)
    have hrows2 := quadEdge_rows v2 r2 ((r2 + 1) % R.toNat) (3 * h2 + e2) V.toNat (by omega)
    have hq := slotPair_inj V.toNat _ _ hrows1.1 hrows1.2 hrows2.1 hrows2.2
      (Option.some.inj h)
    have hc : ∀ r : Nat, r < R.toNat →
        (r + 1 < R.toNat ∧ (r + 1) % R.toNat = r + 1) ∨
        (r + 1 = R.toNat ∧ (r + 1) % R.toNat = 0) := by
      intro r hr
      rcases Nat.lt_or_ge (r + 1) R.toNat with hlt | hge
      · exact Or.inl ⟨hlt, Nat.mod_eq_of_lt hlt⟩
      · have e : r + 1 = R.toNat := by omega
        exact Or.inr ⟨e, by rw [e, Nat.mod_self]⟩
    obtain ⟨ev, er, ek⟩ := quadEdge_inj R.toNat v1 r1 _ (3 * h1 + e1) v2 r2 _ (3 * h2 + e2)
      (by omega) (by omega) (by omega) hr1 (hc r1 hr1) (hc r2 hr2) hq
    subst ev er
    constructor <;> omega
  refine ⟨_, GenerateParametricShape_ok G Mesh.empty f V R (by omega) (by omega), ?_, ?_⟩
  · simpa [Mesh.empty] using hkey
  · intro t1 e1 t2 e2 a b ht1 ht2 he1 he2 hne h1 h2
    simp only [Mesh.empty, List.nil_append] at ht1 ht2 h1 h2 ⊢
    rcases h2 with h2 | h2
    · exact absurd (hkey t1 e1 t2 e2 ht1 ht2 he1 he2 (h1.trans h2.symm)).1 hne
    · exact h2

/-- C20 at the half circle with `V = R = 16`: the first triangle of the first
quad and the second triangle of the last quad of the last column, which meet
across the seam, do not share a directed edge. -/
theorem winding_consistent_witness :
    (2 : Int) ≤ 16 ∧ (3 : Int) ≤ 16 ∧
    ∃ mesh, GenerateParametricShape
        (Glm.mk Real.cos Real.sin Real.sqrt Real.pi (2 * Real.pi) id id : Glm ℝ ℝ)
        Mesh.empty
        (ParametricHalfCircle
          (Glm.mk Real.cos Real.sin Real.sqrt Real.pi (2 * Real.pi) id id))
        16 16 = Except.ok mesh ∧
      mesh.indices.length = 1440 ∧
      ∀ e1 e2 : Nat, e1 < 3 → e2 < 3 →
        directedEdge mesh.indices 0 e1 ≠ directedEdge mesh.indices 451 e2 := by
  refine ⟨by decide, by decide, ?_⟩
  obtain ⟨mesh, h, hw, _⟩ := winding_consistent
    (Glm.mk Real.cos Real.sin Real.sqrt Real.pi (2 * Real.pi) id id : Glm ℝ ℝ)
    (ParametricHalfCircle (Glm.mk Real.cos Real.sin Real.sqrt Real.pi (2 * Real.pi) id id))
    16 16 (by decide) (by decide)
  have hlen : mesh.indices.length = 1440 := by
    rw [GenerateParametricShape_ok _ Mesh.empty _ 16 16 (by decide) (by decide)] at h
    have hm := Except.ok.inj h
    rw [← hm]
    have := length_quads 16 16 (by decide) (by decide)
    simp only [Mesh.empty, List.nil_append]
    omega
  refine ⟨mesh, h, hlen, fun e1 e2 he1 he2 heq => ?_⟩
  have := (hw 0 e1 451 e2 (by omega) (by omega) he1 he2 heq).1
  omega

end WindingClaims

end Graphics3D
